import Mathlib

/-!
Shallow embedding of the core game logic of the block-placement puzzle in
`src/App.tsx` (with shape data from `src/constants.ts` and types from
`src/types.ts`).  Pure functions of the source become Lean functions; the
React component state becomes an explicit `GameState` record and each event
handler becomes a state-transition function.  Randomness (`Math.random` in
`shuffleArray` and the piece-id generator) is modelled by explicit input
streams.  Fractional drag positions (JS numbers holding exact halves of grid
cells etc.) are modelled as rationals; `Math.round x` is `⌊x + 1/2⌋` and
`Math.floor` is `⌊·⌋`, which agree with JS semantics on all rationals.
-/

namespace Tetris

/-- `ROWS` from `src/constants.ts`. -/
def ROWS : Nat := 14

/-- `COLS` from `src/constants.ts`. -/
def COLS : Nat := 10

/-- A grid cell payload: `{color, id}` as written by the commit loops.
The `id` is optional in `src/types.ts` (`GridCell`). -/
structure Cell where
  color : String
  id : Option String
deriving DecidableEq, Repr

/-- `GridCell` from `src/types.ts`: occupied or `null`. -/
abbrev GridCell := Option Cell

/-- `Grid` from `src/types.ts`: `ROWS × COLS` matrix of cells. -/
abbrev Grid := List (List GridCell)

/-- An integer coordinate `{r, c}` (`Point` in `src/types.ts`; integral case). -/
structure Point where
  r : Int
  c : Int
deriving DecidableEq, Repr

/-- Read `grid[r][c]` at natural indices; out-of-range reads give `none`
(JS `undefined`, which the source treats like an empty/absent cell in its
guards). -/
def cellAtN (g : Grid) (r c : Nat) : GridCell :=
  (g.getD r []).getD c none

/-- Read `grid[r][c]` at integer indices; negative indices give `none`. -/
def cellAt (g : Grid) (r c : Int) : GridCell :=
  if 0 ≤ r ∧ 0 ≤ c then cellAtN g r.toNat c.toNat else none

/-- Write `grid[r][c] = v` (in-place assignment in the source commit loops);
out-of-range writes are dropped.  All source writes are in range. -/
def setCell (g : Grid) (r c : Int) (v : GridCell) : Grid :=
  if 0 ≤ r ∧ 0 ≤ c then g.set r.toNat ((g.getD r.toNat []).set c.toNat v) else g

/-- `createEmptyGrid` (`src/App.tsx` line 9). -/
def createEmptyGrid : Grid :=
  List.replicate ROWS (List.replicate COLS none)

/-- `isValidPosition(shape, pos, currentGrid)` (`src/App.tsx` lines 65-82):
for every set cell of the mask, the target coordinate must be inside
`[0,ROWS)×[0,COLS)` and the grid cell must be `null`. -/
def isValidPosition (shape : List (List Nat)) (pos : Point) (grid : Grid) : Bool :=
  (List.range shape.length).all fun r =>
    (List.range ((shape.getD r []).length)).all fun c =>
      ((shape.getD r []).getD c 0 == 0) ||
        (let newR := pos.r + r
         let newC := pos.c + c
         decide (0 ≤ newR) && decide (newR < (ROWS : Int)) &&
         decide (0 ≤ newC) && decide (newC < (COLS : Int)) &&
         decide (cellAt grid newR newC = none))

/-- The set cells of a shape mask, in the row-major order of the source's
nested `for` loops: all `(r, c)` with `shape[r][c]` truthy. -/
def shapeCells (shape : List (List Nat)) : List (Nat × Nat) :=
  (List.range shape.length).flatMap fun r =>
    (List.range ((shape.getD r []).length)).filterMap fun c =>
      if (shape.getD r []).getD c 0 ≠ 0 then some (r, c) else none

/-- The commit loop shared by `spawnPiece` (lines 146-155), `handleDoubleTap`
(lines 273-282) and `handleGlobalEnd` (lines 436-445): write
`{color, id}` at `pos + (r, c)` for every set mask cell. -/
def commitPiece (shape : List (List Nat)) (pos : Point) (color id : String)
    (g : Grid) : Grid :=
  (shapeCells shape).foldl
    (fun acc rc => setCell acc (pos.r + rc.1) (pos.c + rc.2) (some ⟨color, some id⟩)) g

/-- `rotateMatrix` (`src/App.tsx` lines 12-22): a `rows × cols` matrix becomes
a `cols × rows` matrix with `newMatrix[c][rows-1-r] = matrix[r][c]`.
Every entry of the new matrix at `[c][k]` is therefore `matrix[rows-1-k][c]`
(the source initializes with zeros and all shape masks are rectangular, so
the `getD 0` defaults are never hit on source inputs). -/
def rotateMatrix (m : List (List Nat)) : List (List Nat) :=
  let rows := m.length
  let cols := (m.headD []).length
  (List.range cols).map fun c =>
    (List.range rows).map fun k => (m.getD (rows - 1 - k) []).getD c 0

/-- The wall-kick offsets of `performRotation` (`src/App.tsx` lines 204-210),
in source order. -/
def kicks : List Point :=
  [⟨0, 0⟩, ⟨0, -1⟩, ⟨0, 1⟩, ⟨-1, 0⟩, ⟨1, 0⟩, ⟨0, -2⟩, ⟨0, 2⟩, ⟨-2, 0⟩]

/-- A piece as manipulated by `performRotation` / `handleDoubleTap`
(integer position; `type` tag omitted, it is only presentational). -/
structure RotPiece where
  shape : List (List Nat)
  color : String
  id : String
  position : Point
deriving DecidableEq, Repr

/-- `performRotation(targetPiece, tempGrid)` (`src/App.tsx` lines 200-223):
rotate the mask, then return the first kick offset whose target position
validates against the grid (which must not contain the piece itself);
`none` when no kick validates. -/
def performRotation (p : RotPiece) (tempGrid : Grid) : Option RotPiece :=
  let newShape := rotateMatrix p.shape
  (kicks.find? fun k =>
      isValidPosition newShape ⟨p.position.r + k.r, p.position.c + k.c⟩ tempGrid).map
    fun k => { p with shape := newShape
                      position := ⟨p.position.r + k.r, p.position.c + k.c⟩ }

/-- JS destructuring swap `[a[i], a[j]] = [a[j], a[i]]` on a list. -/
def listSwap (l : List String) (i j : Nat) : List String :=
  (l.set i (l.getD j "")).set j (l.getD i "")

/-- The loop of `shuffleArray` (`src/App.tsx` lines 25-32): at index `i`
(counting down to 1) swap with index `j = Math.floor(random * (i + 1))`.
The random draws are modelled by the stream `js`; `% (i + 2)` maps an
arbitrary stream value into the exact range `[0, i+1]` that
`Math.floor(Math.random() * (i + 2))` produces at swap index `i + 1`. -/
def fyGo : List String → Nat → List Nat → List String
  | l, 0, _ => l
  | l, i + 1, js => fyGo (listSwap l (i + 1) (js.headD 0 % (i + 2))) i js.tail

/-- `shuffleArray(array)` (`src/App.tsx` lines 25-32), Fisher-Yates with the
random index choices supplied by `js`. -/
def shuffleArray (js : List Nat) (arr : List String) : List String :=
  fyGo arr (arr.length - 1) js

/-- `UNLOCK_ORDER` from `src/constants.ts`. -/
def UNLOCK_ORDER : List String := ["O", "I", "L", "J", "T", "S", "Z"]

/-- `SHAPES` from `src/constants.ts`: mask and color for each shape key. -/
def SHAPES (k : String) : List (List Nat) × String :=
  if k = "O" then ([[1, 1], [1, 1]], "#facc15")
  else if k = "I" then ([[1], [1], [1], [1]], "#22d3ee")
  else if k = "L" then ([[1, 0], [1, 0], [1, 1]], "#f97316")
  else if k = "J" then ([[0, 1], [0, 1], [1, 1]], "#3b82f6")
  else if k = "T" then ([[1, 1, 1], [0, 1, 0]], "#a855f7")
  else if k = "S" then ([[0, 1, 1], [1, 1, 0]], "#4ade80")
  else if k = "Z" then ([[1, 1, 0], [0, 1, 1]], "#f43f5e")
  else ([], "")

/-- The piece-cell scan shared by `handleStart` (lines 335-345) and
`handleDoubleTap` (lines 239-249): all grid coordinates whose cell carries
the given piece id, scanning rows `0..ROWS` and columns `0..COLS` in order. -/
def blocksOf (g : Grid) (pid : String) : List (Nat × Nat) :=
  (List.range ROWS).flatMap fun r =>
    (List.range COLS).filterMap fun c =>
      if (cellAtN g r c).any (fun cell => cell.id = some pid) then some (r, c)
      else none

/-- `minR` of the bounding-box scan: starts at `ROWS`, takes the minimum
over all blocks. -/
def minROf (blocks : List (Nat × Nat)) : Nat :=
  blocks.foldl (fun m b => min m b.1) ROWS

/-- `maxR` of the bounding-box scan: starts at `0`. -/
def maxROf (blocks : List (Nat × Nat)) : Nat :=
  blocks.foldl (fun m b => max m b.1) 0

/-- `minC` of the bounding-box scan: starts at `COLS`. -/
def minCOf (blocks : List (Nat × Nat)) : Nat :=
  blocks.foldl (fun m b => min m b.2) COLS

/-- `maxC` of the bounding-box scan: starts at `0`. -/
def maxCOf (blocks : List (Nat × Nat)) : Nat :=
  blocks.foldl (fun m b => max m b.2) 0

/-- The normalized `h × w` mask built from the blocks
(`shape[b.r - minR][b.c - minC] = 1` over a zero matrix): entry `(r, c)` is 1
exactly when `(minR + r, minC + c)` is a block. -/
def maskOf (blocks : List (Nat × Nat)) (minR minC h w : Nat) : List (List Nat) :=
  (List.range h).map fun r =>
    (List.range w).map fun c =>
      if (minR + r, minC + c) ∈ blocks then 1 else 0

/-- Clearing the lifted piece's cells from the grid
(`newGrid[b.r][b.c] = null` / `tempGrid[r][c] = null`). -/
def clearCells (g : Grid) (blocks : List (Nat × Nat)) : Grid :=
  blocks.foldl (fun acc b => setCell acc b.1 b.2 none) g

/-- The result of the extraction pipeline that appears verbatim in both
`handleStart` (lines 331-356) and `handleDoubleTap` (lines 234-265):
the same-id blocks, their bounding box, the normalized mask, and the grid
with those cells removed. -/
structure Extraction where
  blocks : List (Nat × Nat)
  minR : Nat
  maxR : Nat
  minC : Nat
  maxC : Nat
  mask : List (List Nat)
  cleared : Grid
deriving Repr

/-- Run the extraction pipeline for piece id `pid` on grid `g`. -/
def extractPiece (g : Grid) (pid : String) : Extraction :=
  let blocks := blocksOf g pid
  let minR := minROf blocks
  let maxR := maxROf blocks
  let minC := minCOf blocks
  let maxC := maxCOf blocks
  let h := maxR - minR + 1
  let w := maxC - minC + 1
  ⟨blocks, minR, maxR, minC, maxC, maskOf blocks minR minC h w, clearCells g blocks⟩

/-- A full row (`currentGrid[r].every(cell => cell !== null)`,
`src/App.tsx` line 496). -/
def rowFull (row : List GridCell) : Bool :=
  row.all fun cell => cell ≠ none

/-- The full-row scan of `checkLines` (lines 494-499). -/
def rowsToClear (g : Grid) : List Nat :=
  (List.range ROWS).filterMap fun r =>
    if rowFull (g.getD r []) then some r else none

/-- The grid produced by the `setTimeout` body of `checkLines`
(lines 509-517): drop the full rows, then unshift empty rows at the top
until the grid is `ROWS` high again. -/
def clearRows (g : Grid) (rtc : List Nat) : Grid :=
  let filtered := ((List.range g.length).zip g).filterMap fun p =>
    if p.1 ∈ rtc then none else some p.2
  List.replicate (ROWS - filtered.length) (List.replicate COLS none) ++ filtered

/-- `saveToHistory` (lines 160-162): `[...prev.slice(-10), deepCopy(grid)]`.
`slice(-10)` keeps the last (up to) 10 entries, then the snapshot is
appended. -/
def saveToHistory (hist : List Grid) (g : Grid) : List Grid :=
  hist.drop (hist.length - 10) ++ [g]

/-- JS `Math.floor` on an exact rational. -/
def jsFloor (q : ℚ) : ℤ := ⌊q⌋

/-- JS `Math.round` on an exact rational: `⌊q + 1/2⌋` (half-up, ties toward
positive infinity, matching `Math.round`). -/
def jsRound (q : ℚ) : ℤ := ⌊q + 1 / 2⌋

/-- The in-flight piece (`ActivePiece` in `src/types.ts`): the position is
fractional during drag, so it is carried as a pair of rationals.  The
presentational `type` tag (`'lifted'`/`'placed'`) is omitted. -/
structure FloatPiece where
  shape : List (List Nat)
  color : String
  id : String
  posR : ℚ
  posC : ℚ
deriving DecidableEq, Repr

/-- The component state of `App` (`src/App.tsx` lines 36-60) relevant to the
core logic, with the refs that shadow state (`activePieceRef`,
`isDragging`, `dragOffset`, `dragStartPos`, `maxUnlockedCountRef`,
`bagRef`) made explicit fields.  `shakePiece`/`shakeBoard` model the
emission of the corresponding feedback event by the most recent step (the
source sets the flag and clears it again on a 300 ms timer). -/
structure GameState where
  grid : Grid
  activePiece : Option FloatPiece
  score : Nat
  gameOver : Bool
  history : List Grid
  clearingRows : List Nat
  shakePiece : Bool
  shakeBoard : Bool
  isDragging : Bool
  dragOffsetR : ℚ
  dragOffsetC : ℚ
  dragStartPos : Point
  maxUnlocked : Nat
  bag : List String
deriving DecidableEq, Repr

/-- The initial component state (lines 36-60; `resetGame` lines 525-535
restores exactly this, with `dragStartPos` starting at `{r: 0, c: 0}`). -/
def initState : GameState :=
  { grid := createEmptyGrid
    activePiece := none
    score := 0
    gameOver := false
    history := []
    clearingRows := []
    shakePiece := false
    shakeBoard := false
    isDragging := false
    dragOffsetR := 0
    dragOffsetC := 0
    dragStartPos := ⟨0, 0⟩
    maxUnlocked := 2
    bag := [] }

/-- `checkLines(currentGrid)` announce phase (lines 491-506): if any row is
full, mark those rows as clearing; otherwise return unchanged. -/
def checkLinesAnnounce (g : Grid) (current : List Nat) : List Nat :=
  let rtc := rowsToClear g
  if rtc = [] then current else rtc

/-- The `setTimeout` commit phase of `checkLines` (lines 509-522), fired with
the announced rows: remove them, refill at the top, add their count to the
score, reset the clearing marker.  (The closure captures the grid passed to
`checkLines`; no mutating action can run between announce and commit, so
firing on the current state grid is the captured grid.) -/
def clearCommitStep (s : GameState) : GameState :=
  { s with grid := clearRows s.grid s.clearingRows
           score := s.score + s.clearingRows.length
           clearingRows := [] }

/-- `spawnPiece` (`src/App.tsx` lines 91-157).  `js` supplies the random
swap indices of the bag shuffle, `newId` the freshly generated piece id. -/
def spawnPiece (js : List Nat) (newId : String) (s : GameState) : GameState :=
  if s.clearingRows ≠ [] then s
  else
    let currentUnlockedCount := 2 + s.score / 4
    let safeUnlockedCount := min currentUnlockedCount UNLOCK_ORDER.length
    let forced := safeUnlockedCount > s.maxUnlocked
    let nextShapeKey :=
      if forced then UNLOCK_ORDER.getD (safeUnlockedCount - 1) ""
      else
        let bag0 := if s.bag = [] then shuffleArray js (UNLOCK_ORDER.take safeUnlockedCount)
                    else s.bag
        bag0.getLastD ""
    let maxUnlocked' := if forced then safeUnlockedCount else s.maxUnlocked
    let bag' :=
      if forced then []
      else
        let bag0 := if s.bag = [] then shuffleArray js (UNLOCK_ORDER.take safeUnlockedCount)
                    else s.bag
        bag0.dropLast
    let d := SHAPES nextShapeKey
    let startPos : Point := ⟨0, ((COLS : Int) - ((d.1.headD []).length : Int)) / 2⟩
    if ¬ isValidPosition d.1 startPos s.grid then
      let bag'' := if nextShapeKey ∈ bag' then bag' else bag' ++ [nextShapeKey]
      { s with maxUnlocked := maxUnlocked', bag := bag'', shakeBoard := true }
    else
      { s with maxUnlocked := maxUnlocked'
               bag := bag'
               history := saveToHistory s.history s.grid
               grid := commitPiece d.1 startPos d.2 newId s.grid
               shakeBoard := false }

/-- `handleUndo` (lines 164-172).  (The source guard is
`history.length === 0 || clearingRows.length > 0`.) -/
def handleUndo (s : GameState) : GameState :=
  if s.history = [] ∨ s.clearingRows ≠ [] then s
  else
    { s with grid := s.history.getLastD []
             history := s.history.dropLast
             activePiece := none
             isDragging := false }

/-- `handleDoubleTap(pos)` (lines 225-289): on an occupied cell with a piece
id, extract the piece into a temp grid, attempt `performRotation`; on
success save history, commit the rotated piece into the temp grid and run
the line-clear announce phase; on failure only emit a piece shake. -/
def handleDoubleTap (posR posC : ℚ) (s : GameState) : GameState :=
  let r := jsFloor posR
  let c := jsFloor posC
  match cellAt s.grid r c with
  | none => s
  | some cell =>
    match cell.id with
    | none => s
    | some pid =>
      if pid = "" then s
      else
        let ex := extractPiece s.grid pid
        let piece : RotPiece := ⟨ex.mask, cell.color, pid, ⟨(ex.minR : Int), (ex.minC : Int)⟩⟩
        match performRotation piece ex.cleared with
        | some rotated =>
          let newGrid := commitPiece rotated.shape rotated.position rotated.color
            rotated.id ex.cleared
          { s with history := saveToHistory s.history s.grid
                   grid := newGrid
                   clearingRows := checkLinesAnnounce newGrid s.clearingRows
                   shakePiece := false }
        | none => { s with shakePiece := true }

/-- `handleStart` (lines 291-380).  The double-tap timing comparison
(`now - lastTapTime < 400`, real time) is supplied as the boolean
`isDoubleTap`.  On a single tap on an occupied cell with a truthy piece id
(`cell.id` must be defined and non-empty), history is saved and the piece
is lifted: its cells are scanned, removed from the grid, and the normalized
mask becomes the active dragging piece positioned at the bounding-box
origin, which is also recorded as `dragStartPos`. -/
def handleStart (isDoubleTap : Bool) (posR posC : ℚ) (s : GameState) : GameState :=
  if s.gameOver ∨ s.clearingRows ≠ [] then s
  else if isDoubleTap then
    let s' := handleDoubleTap posR posC s
    { s' with isDragging := false, activePiece := none }
  else
    let r := jsFloor posR
    let c := jsFloor posC
    match cellAt s.grid r c with
    | none => s
    | some cell =>
      match cell.id with
      | none => s
      | some pid =>
        if pid = "" then s
        else
          let s₁ := { s with history := saveToHistory s.history s.grid }
          let ex := extractPiece s.grid pid
          if ex.blocks = [] then s₁
          else
            { s₁ with
              grid := ex.cleared
              activePiece := some ⟨ex.mask, cell.color, pid, (ex.minR : ℚ), (ex.minC : ℚ)⟩
              isDragging := true
              dragOffsetR := posR - (ex.minR : ℚ)
              dragOffsetC := posC - (ex.minC : ℚ)
              dragStartPos := ⟨(ex.minR : Int), (ex.minC : Int)⟩ }

/-- `handleGlobalMove` (lines 383-407): while dragging, the floating position
follows the pointer minus the grab offset, clamped so the mask's bounding
box stays inside the board. -/
def handleGlobalMove (posR posC : ℚ) (s : GameState) : GameState :=
  if ¬ s.isDragging then s
  else
    match s.activePiece with
    | none => s
    | some p =>
      let shapeH := p.shape.length
      let shapeW := (p.shape.headD []).length
      let newR := max 0 (min (posR - s.dragOffsetR) ((ROWS : ℚ) - shapeH))
      let newC := max 0 (min (posC - s.dragOffsetC) ((COLS : ℚ) - shapeW))
      { s with activePiece := some { p with posR := newR, posC := newC } }

/-- `handleGlobalEnd` (lines 409-454): snap the floating position to the
nearest integer cell, validate against the grid (which does not contain the
dragged piece), commit at the snapped position when valid, otherwise commit
at `dragStartPos` and emit a piece shake; always clear the active piece and
run the line-clear announce phase. -/
def handleGlobalEnd (s : GameState) : GameState :=
  if ¬ s.isDragging then s
  else
    match s.activePiece with
    | none => s
    | some p =>
      let finalR := jsRound p.posR
      let finalC := jsRound p.posC
      let valid := isValidPosition p.shape ⟨finalR, finalC⟩ s.grid
      let target : Point := if valid then ⟨finalR, finalC⟩ else s.dragStartPos
      let newGrid := commitPiece p.shape target p.color p.id s.grid
      { s with isDragging := false
               grid := newGrid
               activePiece := none
               shakePiece := !valid
               clearingRows := checkLinesAnnounce newGrid s.clearingRows }

/-! ### Concrete scenario states used by witnesses and counterexamples -/

/-- A 14×10 grid holding a T piece (id `"t"`) at rows 0-1 and a blocker cell
at `(2,1)` owned by another piece: with the T removed, rotation kick `(0,0)`
collides with the blocker, `(0,-1)` leaves the board, and `(0,1)` is free. -/
def c2Grid : Grid :=
  [ [some ⟨"#a855f7", some "t"⟩, some ⟨"#a855f7", some "t"⟩,
     some ⟨"#a855f7", some "t"⟩, none, none, none, none, none, none, none],
    [none, some ⟨"#a855f7", some "t"⟩, none, none, none, none, none, none, none, none],
    [none, some ⟨"z", some "w"⟩, none, none, none, none, none, none, none, none] ] ++
  List.replicate 11 (List.replicate COLS none)

/-- A grid fully packed except the T piece's own cells, so no rotation kick
can validate. -/
def c2FullGrid : Grid :=
  let b : GridCell := some ⟨"z", some "w"⟩
  [ [some ⟨"#a855f7", some "t"⟩, some ⟨"#a855f7", some "t"⟩,
     some ⟨"#a855f7", some "t"⟩] ++ List.replicate 7 b,
    b :: some ⟨"#a855f7", some "t"⟩ :: List.replicate 8 b ] ++
  List.replicate 12 (List.replicate COLS b)

/-- A grid whose row 5 is fully occupied, with a marker cell at `(6,0)` and
nothing else. -/
def c3Grid : Grid :=
  List.replicate 5 (List.replicate COLS (none : GridCell)) ++
  [List.replicate COLS (some ⟨"x", some "p"⟩)] ++
  [(some ⟨"y", some "q"⟩) :: List.replicate 9 (none : GridCell)] ++
  List.replicate 7 (List.replicate COLS (none : GridCell))

/-- A concrete mid-drag state: an O piece lifted from `(0,4)` and dragged to
`(10,4)` over an empty board. -/
def c1State : GameState :=
  { initState with
    activePiece := some ⟨[[1, 1], [1, 1]], "#facc15", "p", 10, 4⟩
    isDragging := true
    dragStartPos := ⟨0, 4⟩ }

/-- A board holding one placed O piece (id `"p"`) at rows 0-1, columns 4-5. -/
def c8State : GameState :=
  { initState with
    grid := commitPiece [[1, 1], [1, 1]] ⟨0, 4⟩ "#facc15" "p" createEmptyGrid }

/-- The spawn control dispatch: the spawn button is rendered with
`disabled={!!activePiece || clearingRows.length > 0}` (`src/App.tsx`
line 661), so its `onClick` (`spawnPiece`) can only run when no active
piece exists and no clear is in progress. -/
def spawnButtonPress (js : List Nat) (newId : String) (s : GameState) : GameState :=
  if s.activePiece.isSome ∨ s.clearingRows ≠ [] then s else spawnPiece js newId s

/-- A state in which the score has just crossed 4 (so `unlockedCount` rose
from 2 to 3) but the spawn area of the newly unlocked L shape is blocked by
a cell at `(0,4)`. -/
def c6Blocked : GameState :=
  { initState with
    grid := (none :: none :: none :: none :: (some ⟨"z", some "w"⟩) ::
      List.replicate 5 (none : GridCell)) ::
      List.replicate 13 (List.replicate COLS (none : GridCell))
    score := 4
    maxUnlocked := 2 }

/-- The C5 scenario, step by step: spawn an O (drawn with shuffle index 0),
lift it at `(0,4)`, drag it to `(10,4)`, drop it, spawn an I from the bag,
and lift the I — reaching a state whose active piece is the I. -/
def c5DragState : GameState :=
  handleStart false 0 4
    (spawnPiece [] "q"
      (handleGlobalEnd
        (handleGlobalMove 10 4
          (handleStart false 0 4 (spawnPiece [0] "p" initState)))))

/-- The C7 scenario: three successful spawns with undos in between (undo
restores the grid but not the bag), drawing I, then O, then O again. -/
def c7Spawn1 : GameState := spawnPiece [1] "a" initState

/-- Second spawn of the C7 scenario (draws the O left in the bag). -/
def c7Spawn2 : GameState := spawnPiece [] "b" (handleUndo c7Spawn1)

/-- Third spawn of the C7 scenario (refills the bag and draws O again). -/
def c7Spawn3 : GameState := spawnPiece [0] "c" (handleUndo c7Spawn2)

/-! ### Basic facts about the grid primitives -/

/-- Well-formed dimensions: the grid the component maintains is always
`ROWS` rows of `COLS` cells. -/
def dimsOK (g : Grid) : Prop :=
  g.length = ROWS ∧ ∀ row ∈ g, row.length = COLS

theorem dimsOK_createEmptyGrid : dimsOK createEmptyGrid := by
  constructor
  · simp [createEmptyGrid]
  · intro row hrow
    simp only [createEmptyGrid, List.mem_replicate] at hrow
    simp [hrow.2]

theorem length_setCell (g : Grid) (r c : Int) (v : GridCell) :
    (setCell g r c v).length = g.length := by
  unfold setCell
  split <;> simp

theorem getD_row_length_setCell (g : Grid) (r c : Int) (v : GridCell) (i : Nat) :
    ((setCell g r c v).getD i []).length = (g.getD i []).length := by
  unfold setCell
  simp only [List.getD_eq_getElem?_getD]
  split
  · rcases Nat.lt_or_ge i g.length with hi | hi
    · by_cases hir : i = r.toNat
      · subst hir
        rw [List.getElem?_set_self (by simpa using hi), Option.getD_some,
          List.length_set]
      · have hne : r.toNat ≠ i := fun h => hir h.symm
        rw [List.getElem?_set_ne hne]
    · have h1 : g[i]? = none := by
        rw [List.getElem?_eq_none_iff]
        exact hi
      have h2 : (g.set r.toNat ((g[r.toNat]?.getD []).set c.toNat v))[i]? = none := by
        rw [List.getElem?_eq_none_iff]
        simpa using hi
      rw [h1, h2]
  · rfl

theorem cellAtN_setCell (g : Grid) (r c : Int) (v : GridCell) (i j : Nat)
    (hi : i < g.length) (hj : j < (g.getD i []).length) :
    cellAtN (setCell g r c v) i j =
      if (i : Int) = r ∧ (j : Int) = c then v else cellAtN g i j := by
  have hj' : j < (g[i]?.getD []).length := by
    rwa [List.getD_eq_getElem?_getD] at hj
  unfold setCell cellAtN
  simp only [List.getD_eq_getElem?_getD]
  by_cases h : 0 ≤ r ∧ 0 ≤ c
  · rw [if_pos h]
    by_cases hir : (i : Int) = r
    · have hirn : i = r.toNat := by omega
      subst hirn
      rw [List.getElem?_set_self (by simpa using hi), Option.getD_some]
      by_cases hjc : (j : Int) = c
      · have hjcn : j = c.toNat := by omega
        subst hjcn
        rw [if_pos ⟨hir, hjc⟩]
        rw [List.getElem?_set_self (by simpa using hj'), Option.getD_some]
      · have hjcn : c.toNat ≠ j := by omega
        rw [if_neg (by tauto)]
        rw [List.getElem?_set_ne hjcn]
    · have hirn : r.toNat ≠ i := by omega
      rw [if_neg (by tauto)]
      rw [List.getElem?_set_ne hirn]
  · rw [if_neg h]
    have : ¬((i : Int) = r ∧ (j : Int) = c) := by omega
    rw [if_neg this]

theorem length_foldl_setCell (cs : List (Int × Int)) (v : GridCell) (g : Grid) :
    (cs.foldl (fun acc rc => setCell acc rc.1 rc.2 v) g).length = g.length := by
  induction cs generalizing g with
  | nil => rfl
  | cons hd tl ih => rw [List.foldl_cons, ih, length_setCell]

theorem getD_row_length_foldl_setCell (cs : List (Int × Int)) (v : GridCell) (g : Grid)
    (i : Nat) :
    ((cs.foldl (fun acc rc => setCell acc rc.1 rc.2 v) g).getD i []).length =
      (g.getD i []).length := by
  induction cs generalizing g with
  | nil => rfl
  | cons hd tl ih => rw [List.foldl_cons, ih, getD_row_length_setCell]

theorem cellAtN_foldl_setCell (cs : List (Int × Int)) (v : GridCell) (g : Grid) (i j : Nat)
    (hi : i < g.length) (hj : j < (g.getD i []).length) :
    cellAtN (cs.foldl (fun acc rc => setCell acc rc.1 rc.2 v) g) i j =
      if ((i : Int), (j : Int)) ∈ cs then v else cellAtN g i j := by
  induction cs generalizing g with
  | nil => simp
  | cons hd tl ih =>
    rw [List.foldl_cons]
    rw [ih (setCell g hd.1 hd.2 v) (by rwa [length_setCell])
      (by rwa [getD_row_length_setCell])]
    rw [cellAtN_setCell g hd.1 hd.2 v i j hi hj]
    by_cases htl : ((i : Int), (j : Int)) ∈ tl
    · simp [htl]
    · by_cases hhd : (i : Int) = hd.1 ∧ (j : Int) = hd.2
      · have : ((i : Int), (j : Int)) ∈ hd :: tl := by
          rw [List.mem_cons]
          left
          rw [Prod.ext_iff]
          exact hhd
        simp [htl, hhd, this]
      · have : ((i : Int), (j : Int)) ∉ hd :: tl := by
          rw [List.mem_cons]
          rintro (heq | hmem)
          · rw [Prod.ext_iff] at heq
            exact hhd heq
          · exact htl hmem
        simp [htl, hhd, this]

theorem commitPiece_eq_foldl (shape : List (List Nat)) (pos : Point) (color id : String)
    (g : Grid) :
    commitPiece shape pos color id g =
      ((shapeCells shape).map (fun rc => (pos.r + rc.1, pos.c + rc.2))).foldl
        (fun acc rc => setCell acc rc.1 rc.2 (some ⟨color, some id⟩)) g := by
  rw [commitPiece, List.foldl_map]

theorem clearCells_eq_foldl (g : Grid) (blocks : List (Nat × Nat)) :
    clearCells g blocks =
      (blocks.map (fun b => ((b.1 : Int), (b.2 : Int)))).foldl
        (fun acc rc => setCell acc rc.1 rc.2 none) g := by
  rw [clearCells, List.foldl_map]

theorem length_commitPiece (shape : List (List Nat)) (pos : Point) (color id : String)
    (g : Grid) : (commitPiece shape pos color id g).length = g.length := by
  rw [commitPiece_eq_foldl, length_foldl_setCell]

theorem getD_row_length_commitPiece (shape : List (List Nat)) (pos : Point)
    (color id : String) (g : Grid) (i : Nat) :
    ((commitPiece shape pos color id g).getD i []).length = (g.getD i []).length := by
  rw [commitPiece_eq_foldl, getD_row_length_foldl_setCell]

theorem length_clearCells (g : Grid) (blocks : List (Nat × Nat)) :
    (clearCells g blocks).length = g.length := by
  rw [clearCells_eq_foldl, length_foldl_setCell]

theorem getD_row_length_clearCells (g : Grid) (blocks : List (Nat × Nat)) (i : Nat) :
    ((clearCells g blocks).getD i []).length = (g.getD i []).length := by
  rw [clearCells_eq_foldl, getD_row_length_foldl_setCell]

theorem cellAtN_commitPiece (shape : List (List Nat)) (pos : Point) (color id : String)
    (g : Grid) (i j : Nat) (hi : i < g.length) (hj : j < (g.getD i []).length) :
    cellAtN (commitPiece shape pos color id g) i j =
      if ∃ rc ∈ shapeCells shape, pos.r + rc.1 = i ∧ pos.c + rc.2 = j
      then some ⟨color, some id⟩ else cellAtN g i j := by
  rw [commitPiece_eq_foldl, cellAtN_foldl_setCell _ _ _ _ _ hi hj]
  congr 1
  simp only [List.mem_map, Prod.ext_iff, eq_iff_iff]

theorem cellAtN_clearCells (g : Grid) (blocks : List (Nat × Nat)) (i j : Nat)
    (hi : i < g.length) (hj : j < (g.getD i []).length) :
    cellAtN (clearCells g blocks) i j =
      if (i, j) ∈ blocks then none else cellAtN g i j := by
  rw [clearCells_eq_foldl, cellAtN_foldl_setCell _ _ _ _ _ hi hj]
  congr 1
  simp only [List.mem_map, Prod.ext_iff, eq_iff_iff]
  constructor
  · rintro ⟨rc, hrc, h1, h2⟩
    have : rc = (i, j) := by
      rw [Prod.ext_iff]
      omega
    rwa [← this]
  · intro hmem
    exact ⟨(i, j), hmem, rfl, rfl⟩

theorem mem_shapeCells (shape : List (List Nat)) (rc : Nat × Nat) :
    rc ∈ shapeCells shape ↔
      rc.1 < shape.length ∧ rc.2 < (shape.getD rc.1 []).length ∧
        (shape.getD rc.1 []).getD rc.2 0 ≠ 0 := by
  rcases rc with ⟨a, b⟩
  simp only [shapeCells, List.mem_flatMap, List.mem_filterMap, List.mem_range]
  constructor
  · rintro ⟨r, hr, c, hc, hne⟩
    split at hne
    · rename_i hmask
      obtain ⟨rfl, rfl⟩ : r = a ∧ c = b := by
        constructor <;> injection hne with h <;> simp_all
      exact ⟨hr, hc, hmask⟩
    · exact absurd hne (by simp)
  · rintro ⟨ha, hb, hmask⟩
    exact ⟨a, ha, b, hb, by rw [if_pos hmask]⟩

theorem isValidPosition_iff (shape : List (List Nat)) (pos : Point) (g : Grid) :
    isValidPosition shape pos g = true ↔
      ∀ rc ∈ shapeCells shape,
        0 ≤ pos.r + rc.1 ∧ pos.r + rc.1 < (ROWS : Int) ∧
        0 ≤ pos.c + rc.2 ∧ pos.c + rc.2 < (COLS : Int) ∧
        cellAt g (pos.r + rc.1) (pos.c + rc.2) = none := by
  unfold isValidPosition
  simp only [List.all_eq_true, List.mem_range, Bool.or_eq_true, beq_iff_eq,
    Bool.and_eq_true, decide_eq_true_eq]
  constructor
  · intro h rc hrc
    rw [mem_shapeCells] at hrc
    obtain ⟨h1, h2, h3⟩ := hrc
    rcases h rc.1 h1 rc.2 h2 with hmask | hok
    · exact absurd hmask h3
    · tauto
  · intro h r hr c hc
    by_cases hmask : (shape.getD r []).getD c 0 = 0
    · exact Or.inl hmask
    · right
      have := h (r, c) (by rw [mem_shapeCells]; exact ⟨hr, hc, hmask⟩)
      tauto

theorem mem_blocksOf (g : Grid) (pid : String) (rc : Nat × Nat) :
    rc ∈ blocksOf g pid ↔
      rc.1 < ROWS ∧ rc.2 < COLS ∧
        (cellAtN g rc.1 rc.2).any (fun cell => cell.id = some pid) = true := by
  rcases rc with ⟨a, b⟩
  simp only [blocksOf, List.mem_flatMap, List.mem_filterMap, List.mem_range]
  constructor
  · rintro ⟨r, hr, c, hc, hne⟩
    split at hne
    · rename_i hcond
      obtain ⟨rfl, rfl⟩ : r = a ∧ c = b := by
        constructor <;> injection hne with h <;> simp_all
      exact ⟨hr, hc, hcond⟩
    · exact absurd hne (by simp)
  · rintro ⟨ha, hb, hcond⟩
    exact ⟨a, ha, b, hb, by rw [if_pos hcond]⟩

theorem foldl_min_le_init (l : List (Nat × Nat)) (f : Nat × Nat → Nat) (a : Nat) :
    l.foldl (fun m b => min m (f b)) a ≤ a := by
  induction l generalizing a with
  | nil => exact Nat.le_refl a
  | cons hd tl ih =>
    rw [List.foldl_cons]
    exact Nat.le_trans (ih (min a (f hd))) (Nat.min_le_left _ _)

theorem foldl_min_le (l : List (Nat × Nat)) (f : Nat × Nat → Nat) (a : Nat)
    (x : Nat × Nat) (hx : x ∈ l) :
    l.foldl (fun m b => min m (f b)) a ≤ f x := by
  induction l generalizing a with
  | nil => cases hx
  | cons hd tl ih =>
    rw [List.foldl_cons]
    rcases List.mem_cons.mp hx with rfl | hmem
    · exact Nat.le_trans (foldl_min_le_init tl f _) (Nat.min_le_right _ _)
    · exact ih _ hmem

theorem init_le_foldl_max (l : List (Nat × Nat)) (f : Nat × Nat → Nat) (a : Nat) :
    a ≤ l.foldl (fun m b => max m (f b)) a := by
  induction l generalizing a with
  | nil => exact Nat.le_refl a
  | cons hd tl ih =>
    rw [List.foldl_cons]
    exact Nat.le_trans (Nat.le_max_left _ _) (ih (max a (f hd)))

theorem le_foldl_max (l : List (Nat × Nat)) (f : Nat × Nat → Nat) (a : Nat)
    (x : Nat × Nat) (hx : x ∈ l) :
    f x ≤ l.foldl (fun m b => max m (f b)) a := by
  induction l generalizing a with
  | nil => cases hx
  | cons hd tl ih =>
    rw [List.foldl_cons]
    rcases List.mem_cons.mp hx with rfl | hmem
    · exact Nat.le_trans (Nat.le_max_right _ _) (init_le_foldl_max tl f _)
    · exact ih _ hmem

theorem minROf_le (blocks : List (Nat × Nat)) (x : Nat × Nat) (hx : x ∈ blocks) :
    minROf blocks ≤ x.1 :=
  foldl_min_le blocks (fun b => b.1) ROWS x hx

theorem le_maxROf (blocks : List (Nat × Nat)) (x : Nat × Nat) (hx : x ∈ blocks) :
    x.1 ≤ maxROf blocks :=
  le_foldl_max blocks (fun b => b.1) 0 x hx

theorem minCOf_le (blocks : List (Nat × Nat)) (x : Nat × Nat) (hx : x ∈ blocks) :
    minCOf blocks ≤ x.2 :=
  foldl_min_le blocks (fun b => b.2) COLS x hx

theorem le_maxCOf (blocks : List (Nat × Nat)) (x : Nat × Nat) (hx : x ∈ blocks) :
    x.2 ≤ maxCOf blocks :=
  le_foldl_max blocks (fun b => b.2) 0 x hx

theorem length_maskOf (blocks : List (Nat × Nat)) (minR minC h w : Nat) :
    (maskOf blocks minR minC h w).length = h := by
  simp [maskOf]

theorem getD_maskOf (blocks : List (Nat × Nat)) (minR minC h w : Nat) (a : Nat)
    (ha : a < h) :
    (maskOf blocks minR minC h w).getD a [] =
      (List.range w).map fun c => if (minR + a, minC + c) ∈ blocks then 1 else 0 := by
  unfold maskOf
  have ha' : a < ((List.range h).map fun r =>
      (List.range w).map fun c => if (minR + r, minC + c) ∈ blocks then 1 else 0).length := by
    simpa using ha
  rw [List.getD_eq_getElem?_getD, List.getElem?_eq_getElem ha']
  simp

theorem row_length_maskOf (blocks : List (Nat × Nat)) (minR minC h w : Nat) (a : Nat)
    (ha : a < h) :
    ((maskOf blocks minR minC h w).getD a []).length = w := by
  rw [getD_maskOf blocks minR minC h w a ha]
  simp

theorem maskOf_entry (blocks : List (Nat × Nat)) (minR minC h w : Nat) (a b : Nat)
    (ha : a < h) (hb : b < w) :
    ((maskOf blocks minR minC h w).getD a []).getD b 0 =
      if (minR + a, minC + b) ∈ blocks then 1 else 0 := by
  rw [getD_maskOf blocks minR minC h w a ha]
  have hb' : b < ((List.range w).map fun c =>
      if (minR + a, minC + c) ∈ blocks then 1 else 0).length := by simpa using hb
  rw [List.getD_eq_getElem?_getD, List.getElem?_eq_getElem hb']
  simp

theorem mem_shapeCells_maskOf (blocks : List (Nat × Nat)) (minR minC h w : Nat)
    (rc : Nat × Nat) :
    rc ∈ shapeCells (maskOf blocks minR minC h w) ↔
      rc.1 < h ∧ rc.2 < w ∧ (minR + rc.1, minC + rc.2) ∈ blocks := by
  rw [mem_shapeCells, length_maskOf]
  constructor
  · rintro ⟨h1, h2, h3⟩
    rw [row_length_maskOf blocks minR minC h w rc.1 h1] at h2
    refine ⟨h1, h2, ?_⟩
    rw [maskOf_entry blocks minR minC h w rc.1 rc.2 h1 h2] at h3
    by_contra hmem
    rw [if_neg hmem] at h3
    exact h3 rfl
  · rintro ⟨h1, h2, h3⟩
    refine ⟨h1, ?_, ?_⟩
    · rw [row_length_maskOf blocks minR minC h w rc.1 h1]
      exact h2
    · rw [maskOf_entry blocks minR minC h w rc.1 rc.2 h1 h2, if_pos h3]
      exact one_ne_zero

theorem jsFloor_natCast (n : Nat) : jsFloor (n : ℚ) = n := by
  unfold jsFloor
  exact_mod_cast Int.floor_natCast n

theorem jsRound_natCast (n : Nat) : jsRound (n : ℚ) = n := by
  unfold jsRound
  have h1 : ((n : ℚ) : ℚ) = ((n : ℤ) : ℚ) := by push_cast; ring
  rw [h1, Int.floor_int_add]
  have h2 : ⌊(1 / 2 : ℚ)⌋ = 0 := by norm_num
  rw [h2, add_zero]

theorem cellAt_natCast (g : Grid) (r c : Nat) :
    cellAt g (r : Int) (c : Int) = cellAtN g r c := by
  unfold cellAt
  rw [if_pos ⟨Int.natCast_nonneg r, Int.natCast_nonneg c⟩, Int.toNat_natCast,
    Int.toNat_natCast]

theorem cellAtN_of_row_oob (g : Grid) (r c : Nat) (hr : g.length ≤ r) :
    cellAtN g r c = none := by
  unfold cellAtN
  simp only [List.getD_eq_getElem?_getD]
  rw [List.getElem?_eq_none_iff.mpr hr]
  rfl

theorem cellAtN_of_col_oob (g : Grid) (r c : Nat) (hc : (g.getD r []).length ≤ c) :
    cellAtN g r c = none := by
  unfold cellAtN
  simp only [List.getD_eq_getElem?_getD]
  rw [List.getElem?_eq_none_iff.mpr
    (by simpa only [List.getD_eq_getElem?_getD] using hc)]
  rfl

theorem getD_row_length_of_dims (g : Grid) (hdims : dimsOK g) (i : Nat) (hi : i < ROWS) :
    (g.getD i []).length = COLS := by
  obtain ⟨hlen, hrows⟩ := hdims
  have hi' : i < g.length := by omega
  rw [List.getD_eq_getElem?_getD, List.getElem?_eq_getElem hi', Option.getD_some]
  exact hrows _ (List.getElem_mem hi')

/-- Cells carrying a piece id are inside the grid (under well-formed
dimensions): `blocksOf` only returns in-range coordinates with matching
cells. -/
theorem blocksOf_sound (g : Grid) (pid : String) (rc : Nat × Nat)
    (hmem : rc ∈ blocksOf g pid) :
    rc.1 < ROWS ∧ rc.2 < COLS ∧
      (cellAtN g rc.1 rc.2).any (fun cell => cell.id = some pid) = true :=
  (mem_blocksOf g pid rc).mp hmem

/-- Two grids with `dimsOK` that agree on `cellAtN` everywhere are equal. -/
theorem grid_ext (g1 g2 : Grid) (h1 : dimsOK g1) (h2 : dimsOK g2)
    (hcell : ∀ i j : Nat, i < ROWS → j < COLS → cellAtN g1 i j = cellAtN g2 i j) :
    g1 = g2 := by
  obtain ⟨hl1, hr1⟩ := h1
  obtain ⟨hl2, hr2⟩ := h2
  apply List.ext_getElem (by omega)
  intro i hi1 hi2
  have hiR : i < ROWS := by omega
  apply List.ext_getElem
  · rw [hr1 _ (List.getElem_mem hi1), hr2 _ (List.getElem_mem hi2)]
  · intro j hj1 hj2
    have hjC : j < COLS := by
      rw [hr1 _ (List.getElem_mem hi1)] at hj1
      exact hj1
    have e1 : cellAtN g1 i j = g1[i][j] := by
      unfold cellAtN
      simp only [List.getD_eq_getElem?_getD]
      rw [List.getElem?_eq_getElem hi1, Option.getD_some,
        List.getElem?_eq_getElem hj1, Option.getD_some]
    have e2 : cellAtN g2 i j = g2[i][j] := by
      unfold cellAtN
      simp only [List.getD_eq_getElem?_getD]
      rw [List.getElem?_eq_getElem hi2, Option.getD_some,
        List.getElem?_eq_getElem hj2, Option.getD_some]
    rw [← e1, ← e2]
    exact hcell i j hiR hjC

theorem dimsOK_setCell (g : Grid) (r c : Int) (v : GridCell) (h : dimsOK g) :
    dimsOK (setCell g r c v) := by
  obtain ⟨hlen, hrows⟩ := h
  constructor
  · rw [length_setCell, hlen]
  · intro row hrow
    obtain ⟨i, hi, hrow⟩ := List.mem_iff_getElem.mp hrow
    have : row = (setCell g r c v).getD i [] := by
      rw [List.getD_eq_getElem?_getD, List.getElem?_eq_getElem hi, Option.getD_some, hrow]
    rw [this, getD_row_length_setCell]
    apply getD_row_length_of_dims g ⟨hlen, hrows⟩
    rw [length_setCell, hlen] at hi
    exact hi

theorem dimsOK_foldl_setCell (cs : List (Int × Int)) (v : GridCell) (g : Grid)
    (h : dimsOK g) :
    dimsOK (cs.foldl (fun acc rc => setCell acc rc.1 rc.2 v) g) := by
  induction cs generalizing g with
  | nil => exact h
  | cons hd tl ih =>
    rw [List.foldl_cons]
    exact ih _ (dimsOK_setCell g hd.1 hd.2 v h)

theorem dimsOK_commitPiece (shape : List (List Nat)) (pos : Point) (color id : String)
    (g : Grid) (h : dimsOK g) : dimsOK (commitPiece shape pos color id g) := by
  rw [commitPiece_eq_foldl]
  exact dimsOK_foldl_setCell _ _ g h

theorem dimsOK_clearCells (g : Grid) (blocks : List (Nat × Nat)) (h : dimsOK g) :
    dimsOK (clearCells g blocks) := by
  rw [clearCells_eq_foldl]
  exact dimsOK_foldl_setCell _ _ g h

/-- The lift/place round trip on the grid: committing the extracted
normalized mask at the bounding-box origin over the cleared grid restores
the original grid, provided every same-id cell holds the same
`{color, id}` payload (which is how the commit loops write pieces). -/
theorem commit_extract_roundTrip (g : Grid) (pid color : String) (hdims : dimsOK g)
    (huni : ∀ r < ROWS, ∀ c < COLS,
      (cellAtN g r c).any (fun cell => cell.id = some pid) = true →
      cellAtN g r c = some ⟨color, some pid⟩) :
    commitPiece (extractPiece g pid).mask
      ⟨((extractPiece g pid).minR : Int), ((extractPiece g pid).minC : Int)⟩
      color pid (extractPiece g pid).cleared = g := by
  unfold extractPiece
  set blocks := blocksOf g pid with hblocks
  set minR := minROf blocks
  set maxR := maxROf blocks
  set minC := minCOf blocks
  set maxC := maxCOf blocks
  set h := maxR - minR + 1
  set w := maxC - minC + 1
  have hdims' : dimsOK (clearCells g blocks) := dimsOK_clearCells g blocks hdims
  apply grid_ext _ _ (dimsOK_commitPiece _ _ _ _ _ hdims') hdims
  intro i j hiR hjC
  have hgi : i < g.length := by
    rw [hdims.1]
    exact hiR
  have hgj : j < (g.getD i []).length := by
    rw [getD_row_length_of_dims g hdims i hiR]
    exact hjC
  have hi : i < (clearCells g blocks).length := by
    rw [length_clearCells]
    exact hgi
  have hj : j < ((clearCells g blocks).getD i []).length := by
    rw [getD_row_length_clearCells]
    exact hgj
  rw [cellAtN_commitPiece _ _ _ _ _ i j hi hj]
  have hcond : (∃ rc ∈ shapeCells (maskOf blocks minR minC h w),
      (minR : Int) + rc.1 = i ∧ (minC : Int) + rc.2 = j) ↔ (i, j) ∈ blocks := by
    constructor
    · rintro ⟨rc, hrc, he1, he2⟩
      rw [mem_shapeCells_maskOf] at hrc
      obtain ⟨ha, hb, hmem⟩ := hrc
      have e1 : minR + rc.1 = i := by omega
      have e2 : minC + rc.2 = j := by omega
      rwa [e1, e2] at hmem
    · intro hmem
      have b1 := minROf_le blocks _ hmem
      have b2 := le_maxROf blocks _ hmem
      have b3 := minCOf_le blocks _ hmem
      have b4 := le_maxCOf blocks _ hmem
      refine ⟨(i - minR, j - minC), ?_, by push_cast; omega, by push_cast; omega⟩
      rw [mem_shapeCells_maskOf]
      refine ⟨by omega, by omega, ?_⟩
      have e : (minR + (i - minR), minC + (j - minC)) = (i, j) := by
        rw [Prod.ext_iff]
        refine ⟨by omega, by omega⟩
      rw [e]
      exact hmem
  by_cases hmem : (i, j) ∈ blocks
  · rw [if_pos (hcond.mpr hmem)]
    have hany := ((mem_blocksOf g pid (i, j)).mp (hblocks ▸ hmem)).2.2
    exact (huni i hiR j hjC hany).symm
  · rw [if_neg (fun hc => hmem (hcond.mp hc))]
    rw [cellAtN_clearCells g blocks i j hgi hgj, if_neg hmem]

/-! ### The Fisher-Yates shuffle permutes its input -/

theorem length_listSwap (l : List String) (i j : Nat) :
    (listSwap l i j).length = l.length := by
  simp [listSwap]

theorem getD_cons_set_perm :
    ∀ (t : List String) (k : Nat), k < t.length → ∀ a : String,
      (t.getD k "" :: t.set k a).Perm (a :: t) := by
  intro t
  induction t with
  | nil =>
    intro k hk
    cases hk
  | cons b t' ih =>
    intro k hk a
    cases k with
    | zero =>
      simp only [List.getD_cons_zero, List.set_cons_zero]
      exact List.Perm.swap a b t'
    | succ m =>
      simp only [List.getD_cons_succ, List.set_cons_succ]
      have hm : m < t'.length := by simpa using hk
      exact (List.Perm.swap b _ _).trans (((ih m hm a).cons b).trans
        (List.Perm.swap a b t'))

theorem listSwap_perm (l : List String) (i j : Nat) (hi : i < l.length)
    (hj : j < l.length) : (listSwap l i j).Perm l := by
  induction l generalizing i j with
  | nil => cases hi
  | cons hd t ih =>
    cases i with
    | zero =>
      cases j with
      | zero =>
        simp [listSwap]
      | succ m =>
        have hm : m < t.length := by simpa using hj
        simp only [listSwap, List.getD_cons_zero, List.getD_cons_succ,
          List.set_cons_zero, List.set_cons_succ]
        exact getD_cons_set_perm t m hm hd
    | succ m =>
      cases j with
      | zero =>
        have hm : m < t.length := by simpa using hi
        simp only [listSwap, List.getD_cons_zero, List.getD_cons_succ,
          List.set_cons_succ, List.set_cons_zero]
        exact getD_cons_set_perm t m hm hd
      | succ k =>
        have hm : m < t.length := by simpa using hi
        have hk : k < t.length := by simpa using hj
        simp only [listSwap, List.getD_cons_succ, List.set_cons_succ]
        exact (ih m k hm hk).cons hd

theorem fyGo_perm : ∀ (n : Nat) (js : List Nat) (l : List String), n < l.length →
    (fyGo l n js).Perm l := by
  intro n
  induction n with
  | zero =>
    intro js l _
    exact List.Perm.refl l
  | succ m ih =>
    intro js l hn
    rw [fyGo]
    have hj : js.headD 0 % (m + 2) < l.length := by
      have := Nat.mod_lt (js.headD 0) (y := m + 2) (by omega)
      omega
    have hlen : (listSwap l (m + 1) (js.headD 0 % (m + 2))).length = l.length :=
      length_listSwap l _ _
    exact ((ih js.tail _ (by omega)).trans
      (listSwap_perm l (m + 1) _ hn hj))

theorem shuffleArray_perm (js : List Nat) (arr : List String) :
    (shuffleArray js arr).Perm arr := by
  cases arr with
  | nil => exact List.Perm.refl _
  | cons hd tl =>
    unfold shuffleArray
    exact fyGo_perm _ js _ (by simp)

/-! ### Claim C4: undo history bound -/

/-- C4 (code bug): `saveToHistory` is `[...prev.slice(-10), snapshot]`, which
keeps the last 10 previous entries AND appends the new one, so after 15
sequential saves the history holds 11 snapshots, not the 10 stated by the
claim and by the source's own comment; `handleUndo` succeeds while the
history is non-empty, so 11 undos are possible.  This theorem evaluates the
code at the failing input: 15 sequential saves starting from an empty
history leave 11 snapshots. -/
theorem C4_history_retains_eleven :
    ((List.range 15).foldl (fun h _ => saveToHistory h createEmptyGrid) []).length = 11 ∧
      ¬ ((List.range 15).foldl
          (fun h _ => saveToHistory h createEmptyGrid) []).length = 10 := by
  constructor
  · decide
  · decide

/-! ### Claim C2: rotation and wall-kick candidate order -/

/-- C2 (confirmed): `rotateMatrix` sends old entry `[r][c]` to new entry
`[c][rows-1-r]`; `performRotation` tries the kick offsets in exactly the
order of `kicks`, returning the first one that validates against the grid
with the piece removed, and when some prefix of candidates fails but
candidate `k` validates, exactly `k` is chosen; if no candidate validates,
rotation returns `none` and the double-tap handler leaves the grid (and the
piece cells within it) unchanged, emitting only a shake. -/
theorem C2_rotation_kick_order :
    (∀ (m : List (List Nat)) (r c : Nat), r < m.length → c < (m.headD []).length →
      ((rotateMatrix m).getD c []).getD (m.length - 1 - r) 0 = (m.getD r []).getD c 0)
    ∧ (∀ (p : RotPiece) (g : Grid),
        (∀ k ∈ kicks, isValidPosition (rotateMatrix p.shape)
          ⟨p.position.r + k.r, p.position.c + k.c⟩ g = false) →
        performRotation p g = none)
    ∧ (∀ (p : RotPiece) (g : Grid) (l₁ : List Point) (k : Point) (l₂ : List Point),
        kicks = l₁ ++ k :: l₂ →
        (∀ k' ∈ l₁, isValidPosition (rotateMatrix p.shape)
          ⟨p.position.r + k'.r, p.position.c + k'.c⟩ g = false) →
        isValidPosition (rotateMatrix p.shape)
          ⟨p.position.r + k.r, p.position.c + k.c⟩ g = true →
        performRotation p g =
          some { p with shape := rotateMatrix p.shape
                        position := ⟨p.position.r + k.r, p.position.c + k.c⟩ })
    ∧ (∀ (posR posC : ℚ) (s : GameState) (cell : Cell) (pid : String),
        cellAt s.grid (jsFloor posR) (jsFloor posC) = some cell →
        cell.id = some pid → pid ≠ "" →
        performRotation ⟨(extractPiece s.grid pid).mask, cell.color, pid,
          ⟨((extractPiece s.grid pid).minR : Int), ((extractPiece s.grid pid).minC : Int)⟩⟩
          (extractPiece s.grid pid).cleared = none →
        handleDoubleTap posR posC s = { s with shakePiece := true }) := by
  refine ⟨?_, ?_, ?_, ?_⟩
  · intro m r c hr hc
    simp only [rotateMatrix, List.getD_eq_getElem?_getD, List.getElem?_map]
    rw [List.getElem?_range hc]
    simp only [Option.map_some', Option.getD_some, List.getElem?_map]
    rw [List.getElem?_range (show m.length - 1 - r < m.length by omega)]
    simp only [Option.map_some', Option.getD_some]
    have harith : m.length - 1 - (m.length - 1 - r) = r := by omega
    rw [harith]
  · intro p g hall
    simp only [performRotation]
    rw [List.find?_eq_none.mpr]
    · rfl
    · intro k hk
      simp only [Bool.not_eq_true]
      exact hall k hk
  · intro p g l₁ k l₂ hsplit hpre hk
    simp only [performRotation]
    rw [hsplit, List.find?_append]
    rw [List.find?_eq_none.mpr (fun x hx => by
      simp only [Bool.not_eq_true]
      exact hpre x hx)]
    rw [Option.none_or]
    have hk' : (fun kk : Point => isValidPosition (rotateMatrix p.shape)
        ⟨p.position.r + kk.r, p.position.c + kk.c⟩ g) k = true := hk
    have hfind : List.find? (fun kk : Point => isValidPosition (rotateMatrix p.shape)
        ⟨p.position.r + kk.r, p.position.c + kk.c⟩ g) (k :: l₂) = some k :=
      List.find?_cons_of_pos _ hk'
    rw [hfind]
    rfl
  · intro posR posC s cell pid hcell hid hne hrot
    simp only [handleDoubleTap]
    rw [hcell]
    simp only [hid]
    rw [if_neg hne, hrot]

theorem C2_rotation_kick_order_witness :
    (performRotation ⟨[[1, 1, 1], [0, 1, 0]], "#a855f7", "t", ⟨0, 0⟩⟩
        (extractPiece c2Grid "t").cleared =
      some ⟨[[0, 1], [1, 1], [0, 1]], "#a855f7", "t", ⟨0, 1⟩⟩) ∧
    (handleDoubleTap 0 0 { initState with grid := c2FullGrid } =
      { initState with grid := c2FullGrid, shakePiece := true }) := by
  constructor
  · have h3 := C2_rotation_kick_order.2.2.1
    have happ := h3 ⟨[[1, 1, 1], [0, 1, 0]], "#a855f7", "t", ⟨0, 0⟩⟩
      (extractPiece c2Grid "t").cleared
      [⟨0, 0⟩, ⟨0, -1⟩] ⟨0, 1⟩ [⟨-1, 0⟩, ⟨1, 0⟩, ⟨0, -2⟩, ⟨0, 2⟩, ⟨-2, 0⟩]
      (by decide) (by decide) (by decide)
    rw [happ]
    decide
  · have h4 := C2_rotation_kick_order.2.2.2
    exact h4 0 0 { initState with grid := c2FullGrid } ⟨"#a855f7", some "t"⟩ "t"
      (by decide) rfl (by decide) (by decide)

/-! ### Claim C3: line clear commit -/

/-- C3 counterexample: on a grid where row 5 is the unique full row and
`(6,0)` holds a marker cell, the commit phase leaves the marker at `(6,0)`
and makes `(5,0)` empty — rows below index 5 do NOT shift up by one (the
claim would place the old row-6 content at row 5). -/
theorem C3_rows_below_do_not_shift_up :
    rowsToClear c3Grid = [5] ∧
    cellAtN c3Grid 6 0 = some ⟨"y", some "q"⟩ ∧
    cellAtN (clearCommitStep
        { initState with
          grid := c3Grid
          clearingRows := checkLinesAnnounce c3Grid [] }).grid 6 0 =
      some ⟨"y", some "q"⟩ ∧
    cellAtN (clearCommitStep
        { initState with
          grid := c3Grid
          clearingRows := checkLinesAnnounce c3Grid [] }).grid 5 0 = none := by
  refine ⟨by decide, by decide, by decide, by decide⟩

/-- C3 amended (proved): for a grid in which row 5 is fully occupied and no
other row is full, the commit phase of the line clear removes row 5's
content, inserts a new empty row at index 0, shifts rows 0-4 down by one
(old row `i` ends at index `i+1`), leaves rows 6-13 at their indices, sets
the score up by exactly 1 and resets the clearing marker. -/
theorem C3_line_clear_commit (s : GameState)
    (r0 r1 r2 r3 r4 r5 r6 r7 r8 r9 r10 r11 r12 r13 : List GridCell)
    (hg : s.grid = [r0, r1, r2, r3, r4, r5, r6, r7, r8, r9, r10, r11, r12, r13])
    (h5 : rowFull r5 = true)
    (h0 : rowFull r0 = false) (h1 : rowFull r1 = false) (h2 : rowFull r2 = false)
    (h3 : rowFull r3 = false) (h4 : rowFull r4 = false) (h6 : rowFull r6 = false)
    (h7 : rowFull r7 = false) (h8 : rowFull r8 = false) (h9 : rowFull r9 = false)
    (h10 : rowFull r10 = false) (h11 : rowFull r11 = false) (h12 : rowFull r12 = false)
    (h13 : rowFull r13 = false) :
    clearCommitStep
        { s with clearingRows := checkLinesAnnounce s.grid s.clearingRows } =
      { s with
        grid := List.replicate COLS none ::
          [r0, r1, r2, r3, r4, r6, r7, r8, r9, r10, r11, r12, r13]
        score := s.score + 1
        clearingRows := [] } := by
  have hR : List.range ROWS = [0, 1, 2, 3, 4, 5, 6, 7, 8, 9, 10, 11, 12, 13] := by
    decide
  have hrtc : rowsToClear s.grid = [5] := by
    unfold rowsToClear
    rw [hg, hR]
    simp [List.filterMap_cons, h0, h1, h2, h3, h4, h5, h6, h7, h8, h9, h10, h11, h12,
      h13, List.getD_cons_zero, List.getD_cons_succ]
  have hann : checkLinesAnnounce s.grid s.clearingRows = [5] := by
    unfold checkLinesAnnounce
    rw [hrtc]
    simp
  rw [hann]
  unfold clearCommitStep clearRows
  simp only [hg]
  have hR14 : List.range 14 = [0, 1, 2, 3, 4, 5, 6, 7, 8, 9, 10, 11, 12, 13] := hR
  norm_num [hR14, List.zip_cons_cons, List.filterMap_cons, List.replicate_succ, ROWS,
    COLS]

theorem C3_line_clear_commit_witness :
    clearCommitStep
        { initState with
          grid := c3Grid
          clearingRows := checkLinesAnnounce c3Grid [] } =
      { initState with
        grid := List.replicate COLS none ::
          [List.replicate COLS none, List.replicate COLS none, List.replicate COLS none,
           List.replicate COLS none, List.replicate COLS none,
           (some ⟨"y", some "q"⟩) :: List.replicate 9 none,
           List.replicate COLS none, List.replicate COLS none, List.replicate COLS none,
           List.replicate COLS none, List.replicate COLS none, List.replicate COLS none,
           List.replicate COLS none]
        score := 1
        clearingRows := [] } := by
  have happ := C3_line_clear_commit { initState with grid := c3Grid }
    (List.replicate COLS none) (List.replicate COLS none) (List.replicate COLS none)
    (List.replicate COLS none) (List.replicate COLS none)
    (List.replicate COLS (some ⟨"x", some "p"⟩))
    ((some ⟨"y", some "q"⟩) :: List.replicate 9 none)
    (List.replicate COLS none) (List.replicate COLS none) (List.replicate COLS none)
    (List.replicate COLS none) (List.replicate COLS none) (List.replicate COLS none)
    (List.replicate COLS none)
    (by decide) (by decide) (by decide) (by decide) (by decide) (by decide) (by decide)
    (by decide) (by decide) (by decide) (by decide) (by decide) (by decide) (by decide)
    (by decide)
  exact happ.trans (by decide)

/-! ### Claim C9: committing a validated piece never overwrites -/

/-- C9 (confirmed): committing a piece at a position accepted by
`isValidPosition` never overwrites an occupied cell — after the commit,
every previously occupied cell (necessarily not part of the committed piece,
since validation required the piece's target cells to be empty) holds
exactly its previous content. -/
theorem C9_commit_never_overwrites (shape : List (List Nat)) (pos : Point)
    (color id : String) (g : Grid) (hdims : dimsOK g)
    (hval : isValidPosition shape pos g = true) (i j : Nat)
    (hi : i < ROWS) (hj : j < COLS) (hocc : cellAtN g i j ≠ none) :
    cellAtN (commitPiece shape pos color id g) i j = cellAtN g i j := by
  have hgi : i < g.length := by
    rw [hdims.1]
    exact hi
  have hgj : j < (g.getD i []).length := by
    rw [getD_row_length_of_dims g hdims i hi]
    exact hj
  rw [cellAtN_commitPiece shape pos color id g i j hgi hgj]
  rw [if_neg]
  rintro ⟨rc, hrc, he1, he2⟩
  have hcells := (isValidPosition_iff shape pos g).mp hval rc hrc
  rw [he1, he2] at hcells
  rw [cellAt_natCast] at hcells
  exact hocc hcells.2.2.2.2

/-- C9 witness: an O piece committed at `(5,5)` on a grid whose only occupied
cell is `(0,0)` leaves `(0,0)` unchanged. -/
theorem C9_commit_never_overwrites_witness :
    cellAtN
        (commitPiece [[1, 1], [1, 1]] ⟨5, 5⟩ "#facc15" "n"
          (setCell createEmptyGrid 0 0 (some ⟨"y", some "q"⟩))) 0 0 =
      cellAtN (setCell createEmptyGrid 0 0 (some ⟨"y", some "q"⟩)) 0 0 := by
  exact C9_commit_never_overwrites [[1, 1], [1, 1]] ⟨5, 5⟩ "#facc15" "n"
    (setCell createEmptyGrid 0 0 (some ⟨"y", some "q"⟩))
    (by constructor
        · decide
        · decide)
    (by decide) 0 0 (by decide) (by decide) (by decide)

/-! ### Claim C1: every drop commits (snap or snap-back) -/

/-- C1 (confirmed): on pointer release during a drag, the floating position
is rounded to the nearest integer cell and re-validated against the grid
(which does not contain the dragged piece, removed at lift time); if valid
the piece is committed at the rounded position, otherwise at
`dragStartPos` (the pre-lift origin); the active piece is always cleared
(never left floating), the piece's cells are present in the grid at the
chosen target, and the shake feedback is emitted exactly on snap-back. -/
theorem C1_drop_always_commits (s : GameState) (p : FloatPiece)
    (hdrag : s.isDragging = true) (hp : s.activePiece = some p)
    (hdims : dimsOK s.grid)
    (horig : ∀ rc ∈ shapeCells p.shape,
      0 ≤ s.dragStartPos.r + rc.1 ∧ s.dragStartPos.r + rc.1 < (ROWS : Int) ∧
      0 ≤ s.dragStartPos.c + rc.2 ∧ s.dragStartPos.c + rc.2 < (COLS : Int)) :
    (handleGlobalEnd s).activePiece = none ∧
    (handleGlobalEnd s).isDragging = false ∧
    (handleGlobalEnd s).grid =
      commitPiece p.shape
        (if isValidPosition p.shape ⟨jsRound p.posR, jsRound p.posC⟩ s.grid
         then ⟨jsRound p.posR, jsRound p.posC⟩ else s.dragStartPos)
        p.color p.id s.grid ∧
    (handleGlobalEnd s).shakePiece =
      !(isValidPosition p.shape ⟨jsRound p.posR, jsRound p.posC⟩ s.grid) ∧
    (∀ rc ∈ shapeCells p.shape,
      cellAt (handleGlobalEnd s).grid
        ((if isValidPosition p.shape ⟨jsRound p.posR, jsRound p.posC⟩ s.grid
          then (⟨jsRound p.posR, jsRound p.posC⟩ : Point) else s.dragStartPos).r + rc.1)
        ((if isValidPosition p.shape ⟨jsRound p.posR, jsRound p.posC⟩ s.grid
          then (⟨jsRound p.posR, jsRound p.posC⟩ : Point) else s.dragStartPos).c + rc.2) =
        some ⟨p.color, some p.id⟩) := by
  have hstep : handleGlobalEnd s =
      { s with isDragging := false
               grid := commitPiece p.shape
                 (if isValidPosition p.shape ⟨jsRound p.posR, jsRound p.posC⟩ s.grid
                  then ⟨jsRound p.posR, jsRound p.posC⟩ else s.dragStartPos)
                 p.color p.id s.grid
               activePiece := none
               shakePiece :=
                 !(isValidPosition p.shape ⟨jsRound p.posR, jsRound p.posC⟩ s.grid)
               clearingRows := checkLinesAnnounce
                 (commitPiece p.shape
                   (if isValidPosition p.shape ⟨jsRound p.posR, jsRound p.posC⟩ s.grid
                    then ⟨jsRound p.posR, jsRound p.posC⟩ else s.dragStartPos)
                   p.color p.id s.grid) s.clearingRows } := by
    simp only [handleGlobalEnd, hdrag, hp, Bool.not_true, Bool.false_eq_true,
      if_false, not_true_eq_false]
  refine ⟨by rw [hstep], by rw [hstep], by rw [hstep], by rw [hstep], ?_⟩
  intro rc hrc
  rw [hstep]
  set target : Point :=
    if isValidPosition p.shape ⟨jsRound p.posR, jsRound p.posC⟩ s.grid
    then (⟨jsRound p.posR, jsRound p.posC⟩ : Point) else s.dragStartPos with htarget
  have hbounds : 0 ≤ target.r + rc.1 ∧ target.r + rc.1 < (ROWS : Int) ∧
      0 ≤ target.c + rc.2 ∧ target.c + rc.2 < (COLS : Int) := by
    rw [htarget]
    by_cases hv : isValidPosition p.shape ⟨jsRound p.posR, jsRound p.posC⟩ s.grid
    · rw [if_pos hv]
      have := (isValidPosition_iff p.shape ⟨jsRound p.posR, jsRound p.posC⟩ s.grid).mp
        hv rc hrc
      exact ⟨this.1, this.2.1, this.2.2.1, this.2.2.2.1⟩
    · rw [if_neg hv]
      exact horig rc hrc
  obtain ⟨hb1, hb2, hb3, hb4⟩ := hbounds
  have hia : target.r + rc.1 = ((target.r + rc.1).toNat : Int) := by omega
  have hja : target.c + rc.2 = ((target.c + rc.2).toNat : Int) := by omega
  rw [hia, hja, cellAt_natCast]
  have hgi : (target.r + rc.1).toNat < s.grid.length := by
    rw [hdims.1]
    omega
  have hgj : (target.c + rc.2).toNat < (s.grid.getD (target.r + rc.1).toNat []).length := by
    rw [getD_row_length_of_dims s.grid hdims _ (by omega)]
    omega
  rw [cellAtN_commitPiece _ _ _ _ _ _ _ hgi hgj]
  rw [if_pos]
  exact ⟨rc, hrc, by omega, by omega⟩

theorem C1_drop_always_commits_witness :
    (handleGlobalEnd c1State).activePiece = none ∧
    (handleGlobalEnd c1State).isDragging = false ∧
    (handleGlobalEnd c1State).grid =
      commitPiece [[1, 1], [1, 1]]
        (if isValidPosition [[1, 1], [1, 1]] ⟨jsRound 10, jsRound 4⟩ c1State.grid
         then ⟨jsRound 10, jsRound 4⟩ else c1State.dragStartPos)
        "#facc15" "p" c1State.grid ∧
    (handleGlobalEnd c1State).shakePiece =
      !(isValidPosition [[1, 1], [1, 1]] ⟨jsRound 10, jsRound 4⟩ c1State.grid) ∧
    cellAt (handleGlobalEnd c1State).grid
        ((if isValidPosition [[1, 1], [1, 1]] ⟨jsRound 10, jsRound 4⟩ c1State.grid
          then (⟨jsRound 10, jsRound 4⟩ : Point) else c1State.dragStartPos).r + 0)
        ((if isValidPosition [[1, 1], [1, 1]] ⟨jsRound 10, jsRound 4⟩ c1State.grid
          then (⟨jsRound 10, jsRound 4⟩ : Point) else c1State.dragStartPos).c + 0) =
      some ⟨"#facc15", some "p"⟩ := by
  have h := C1_drop_always_commits c1State ⟨[[1, 1], [1, 1]], "#facc15", "p", 10, 4⟩
    rfl rfl
    (by constructor
        · decide
        · decide)
    (by decide)
  exact ⟨h.1, h.2.1, h.2.2.1, h.2.2.2.1, h.2.2.2.2 (0, 0) (by decide)⟩

theorem cellAtN_ne_none_lt (g : Grid) (hdims : dimsOK g) (r c : Nat)
    (h : cellAtN g r c ≠ none) : r < ROWS ∧ c < COLS := by
  have hlen : g.length = ROWS := hdims.1
  constructor
  · by_contra hr
    exact h (cellAtN_of_row_oob g r c (by omega))
  · by_contra hc
    rcases Nat.lt_or_ge r ROWS with hrR | hrR
    · refine h (cellAtN_of_col_oob g r c ?_)
      rw [getD_row_length_of_dims g hdims r hrR]
      omega
    · exact h (cellAtN_of_row_oob g r c (by omega))

/-! ### Claim C8: lift then drop at the origin is the identity -/

/-- The lift branch of `handleStart` as a state equation: on a single tap at
an occupied cell with a truthy piece id, the piece with that id is extracted
from the grid and becomes the dragged active piece. -/
theorem handleStart_lift_eq (s : GameState) (r0 c0 : Nat) (cell : Cell) (pid : String)
    (hgo : s.gameOver = false) (hcl : s.clearingRows = [])
    (hcell : cellAt s.grid (r0 : Int) (c0 : Int) = some cell)
    (hid : cell.id = some pid) (hne : pid ≠ "")
    (hbne : (extractPiece s.grid pid).blocks ≠ []) :
    handleStart false (r0 : ℚ) (c0 : ℚ) s =
      { s with
        history := saveToHistory s.history s.grid
        grid := (extractPiece s.grid pid).cleared
        activePiece := some ⟨(extractPiece s.grid pid).mask, cell.color, pid,
          ((extractPiece s.grid pid).minR : ℚ), ((extractPiece s.grid pid).minC : ℚ)⟩
        isDragging := true
        dragOffsetR := (r0 : ℚ) - ((extractPiece s.grid pid).minR : ℚ)
        dragOffsetC := (c0 : ℚ) - ((extractPiece s.grid pid).minC : ℚ)
        dragStartPos := ⟨((extractPiece s.grid pid).minR : Int),
          ((extractPiece s.grid pid).minC : Int)⟩ } := by
  simp only [handleStart, hgo, hcl, jsFloor_natCast, hcell, hid, Bool.false_eq_true,
    if_false, ne_eq, not_true_eq_false, not_false_eq_true, or_self, if_neg hne,
    if_neg hbne]

/-- C8 (confirmed): lifting a placed piece — removing all cells sharing its
piece id and building the normalized bounding-box mask — and then
immediately releasing the pointer (so the floating position is still the
bounding-box origin) recommits the piece at the origin and reproduces the
original grid exactly.  `huni` states that the tapped piece is a placed
piece: all cells carrying its id share the single `{color, id}` payload the
commit loops wrote. -/
theorem C8_lift_drop_roundTrip (s : GameState) (r0 c0 : Nat) (cell : Cell)
    (pid : String)
    (hgo : s.gameOver = false) (hcl : s.clearingRows = [])
    (hdims : dimsOK s.grid)
    (htap : cellAtN s.grid r0 c0 = some cell)
    (hid : cell.id = some pid) (hne : pid ≠ "")
    (huni : ∀ r < ROWS, ∀ c < COLS,
      (cellAtN s.grid r c).any (fun cc => cc.id = some pid) = true →
      cellAtN s.grid r c = some ⟨cell.color, some pid⟩) :
    (handleGlobalEnd (handleStart false (r0 : ℚ) (c0 : ℚ) s)).grid = s.grid := by
  have hcell : cellAt s.grid (r0 : Int) (c0 : Int) = some cell := by
    rw [cellAt_natCast]
    exact htap
  have hrange : r0 < ROWS ∧ c0 < COLS :=
    cellAtN_ne_none_lt s.grid hdims r0 c0 (by rw [htap]; exact Option.some_ne_none cell)
  have hmem : (r0, c0) ∈ blocksOf s.grid pid := by
    rw [mem_blocksOf]
    refine ⟨hrange.1, hrange.2, ?_⟩
    rw [htap]
    simp [hid]
  have hbne : (extractPiece s.grid pid).blocks ≠ [] := by
    intro hnil
    have : (r0, c0) ∈ (extractPiece s.grid pid).blocks := hmem
    rw [hnil] at this
    exact List.not_mem_nil _ this
  rw [handleStart_lift_eq s r0 c0 cell pid hgo hcl hcell hid hne hbne]
  have hround : handleGlobalEnd
      { s with
        history := saveToHistory s.history s.grid
        grid := (extractPiece s.grid pid).cleared
        activePiece := some ⟨(extractPiece s.grid pid).mask, cell.color, pid,
          ((extractPiece s.grid pid).minR : ℚ), ((extractPiece s.grid pid).minC : ℚ)⟩
        isDragging := true
        dragOffsetR := (r0 : ℚ) - ((extractPiece s.grid pid).minR : ℚ)
        dragOffsetC := (c0 : ℚ) - ((extractPiece s.grid pid).minC : ℚ)
        dragStartPos := ⟨((extractPiece s.grid pid).minR : Int),
          ((extractPiece s.grid pid).minC : Int)⟩ } =
      { s with
        history := saveToHistory s.history s.grid
        grid := commitPiece (extractPiece s.grid pid).mask
          ⟨((extractPiece s.grid pid).minR : Int), ((extractPiece s.grid pid).minC : Int)⟩
          cell.color pid (extractPiece s.grid pid).cleared
        activePiece := none
        isDragging := false
        dragOffsetR := (r0 : ℚ) - ((extractPiece s.grid pid).minR : ℚ)
        dragOffsetC := (c0 : ℚ) - ((extractPiece s.grid pid).minC : ℚ)
        dragStartPos := ⟨((extractPiece s.grid pid).minR : Int),
          ((extractPiece s.grid pid).minC : Int)⟩
        shakePiece := !(isValidPosition (extractPiece s.grid pid).mask
          ⟨((extractPiece s.grid pid).minR : Int), ((extractPiece s.grid pid).minC : Int)⟩
          (extractPiece s.grid pid).cleared)
        clearingRows := checkLinesAnnounce
          (commitPiece (extractPiece s.grid pid).mask
            ⟨((extractPiece s.grid pid).minR : Int),
             ((extractPiece s.grid pid).minC : Int)⟩
            cell.color pid (extractPiece s.grid pid).cleared) s.clearingRows } := by
    simp only [handleGlobalEnd, jsRound_natCast, Bool.not_true, Bool.false_eq_true,
      if_false, not_true_eq_false, ite_self]
  rw [hround]
  exact commit_extract_roundTrip s.grid pid cell.color hdims huni

theorem C8_lift_drop_roundTrip_witness :
    (handleGlobalEnd
      (handleStart false ((0 : Nat) : ℚ) ((4 : Nat) : ℚ) c8State)).grid =
      c8State.grid := by
  exact C8_lift_drop_roundTrip c8State 0 4 ⟨"#facc15", some "p"⟩ "p" rfl rfl
    (by constructor
        · decide
        · decide)
    (by decide) rfl (by decide) (by decide)

/-! ### Claim C10: snap-back safety without a re-check -/

/-- C10 (confirmed): between a lift and the drop only `handleGlobalMove`
runs, and it never touches the grid (first conjunct).  If the drop's rounded
position fails validation, the piece is committed at the pre-lift origin
without any validity re-check; because the lift emptied exactly the piece's
cells and the grid was not mutated since, this snap-back commit writes only
to the cells the lift emptied: the resulting grid is exactly the pre-lift
grid (so no occupied cell is overwritten and the piece's footprint is
restored), every cell outside the lifted block set keeps the value it had in
the lifted grid, and the shake feedback fires. -/
theorem C10_snapback_safe (s : GameState) (r0 c0 : Nat) (cell : Cell)
    (pid : String) (qR qC : ℚ)
    (hgo : s.gameOver = false) (hcl : s.clearingRows = [])
    (hdims : dimsOK s.grid)
    (htap : cellAtN s.grid r0 c0 = some cell)
    (hid : cell.id = some pid) (hne : pid ≠ "")
    (huni : ∀ r < ROWS, ∀ c < COLS,
      (cellAtN s.grid r c).any (fun cc => cc.id = some pid) = true →
      cellAtN s.grid r c = some ⟨cell.color, some pid⟩)
    (hinv : isValidPosition (extractPiece s.grid pid).mask
      ⟨jsRound qR, jsRound qC⟩ (extractPiece s.grid pid).cleared = false) :
    (∀ (x y : ℚ) (t : GameState), (handleGlobalMove x y t).grid = t.grid) ∧
    (handleGlobalEnd
        { handleStart false (r0 : ℚ) (c0 : ℚ) s with
          activePiece := (handleStart false (r0 : ℚ) (c0 : ℚ) s).activePiece.map
            (fun p => { p with posR := qR, posC := qC }) }).grid = s.grid ∧
    (handleGlobalEnd
        { handleStart false (r0 : ℚ) (c0 : ℚ) s with
          activePiece := (handleStart false (r0 : ℚ) (c0 : ℚ) s).activePiece.map
            (fun p => { p with posR := qR, posC := qC }) }).shakePiece = true ∧
    (∀ i j : Nat, i < ROWS → j < COLS → (i, j) ∉ (extractPiece s.grid pid).blocks →
      cellAtN (handleGlobalEnd
        { handleStart false (r0 : ℚ) (c0 : ℚ) s with
          activePiece := (handleStart false (r0 : ℚ) (c0 : ℚ) s).activePiece.map
            (fun p => { p with posR := qR, posC := qC }) }).grid i j =
        cellAtN (handleStart false (r0 : ℚ) (c0 : ℚ) s).grid i j) := by
  have hmove : ∀ (x y : ℚ) (t : GameState), (handleGlobalMove x y t).grid = t.grid := by
    intro x y t
    unfold handleGlobalMove
    split
    · rfl
    · split
      · rfl
      · rfl
  have hcell : cellAt s.grid (r0 : Int) (c0 : Int) = some cell := by
    rw [cellAt_natCast]
    exact htap
  have hrange : r0 < ROWS ∧ c0 < COLS :=
    cellAtN_ne_none_lt s.grid hdims r0 c0 (by rw [htap]; exact Option.some_ne_none cell)
  have hmem : (r0, c0) ∈ blocksOf s.grid pid := by
    rw [mem_blocksOf]
    refine ⟨hrange.1, hrange.2, ?_⟩
    rw [htap]
    simp [hid]
  have hbne : (extractPiece s.grid pid).blocks ≠ [] := by
    intro hnil
    have : (r0, c0) ∈ (extractPiece s.grid pid).blocks := hmem
    rw [hnil] at this
    exact List.not_mem_nil _ this
  rw [handleStart_lift_eq s r0 c0 cell pid hgo hcl hcell hid hne hbne]
  have hgridRT : commitPiece (extractPiece s.grid pid).mask
      ⟨((extractPiece s.grid pid).minR : Int), ((extractPiece s.grid pid).minC : Int)⟩
      cell.color pid (extractPiece s.grid pid).cleared = s.grid :=
    commit_extract_roundTrip s.grid pid cell.color hdims huni
  have hend : (handleGlobalEnd
      { s with
        history := saveToHistory s.history s.grid
        grid := (extractPiece s.grid pid).cleared
        activePiece := some ⟨(extractPiece s.grid pid).mask, cell.color, pid, qR, qC⟩
        isDragging := true
        dragOffsetR := (r0 : ℚ) - ((extractPiece s.grid pid).minR : ℚ)
        dragOffsetC := (c0 : ℚ) - ((extractPiece s.grid pid).minC : ℚ)
        dragStartPos := ⟨((extractPiece s.grid pid).minR : Int),
          ((extractPiece s.grid pid).minC : Int)⟩ }).grid = s.grid ∧
      (handleGlobalEnd
      { s with
        history := saveToHistory s.history s.grid
        grid := (extractPiece s.grid pid).cleared
        activePiece := some ⟨(extractPiece s.grid pid).mask, cell.color, pid, qR, qC⟩
        isDragging := true
        dragOffsetR := (r0 : ℚ) - ((extractPiece s.grid pid).minR : ℚ)
        dragOffsetC := (c0 : ℚ) - ((extractPiece s.grid pid).minC : ℚ)
        dragStartPos := ⟨((extractPiece s.grid pid).minR : Int),
          ((extractPiece s.grid pid).minC : Int)⟩ }).shakePiece = true := by
    simp only [handleGlobalEnd, hinv, Bool.not_false, Bool.false_eq_true, if_false,
      not_true_eq_false]
    constructor
    · exact hgridRT
    · trivial
  simp only [Option.map_some']
  refine ⟨hmove, hend.1, hend.2, ?_⟩
  intro i j hi hj hnotmem
  have hgi : i < s.grid.length := by
    rw [hdims.1]
    exact hi
  have hgj : j < (s.grid.getD i []).length := by
    rw [getD_row_length_of_dims s.grid hdims i hi]
    exact hj
  rw [hend.1]
  have hnm : (i, j) ∉ blocksOf s.grid pid := hnotmem
  have hclr : cellAtN (clearCells s.grid (blocksOf s.grid pid)) i j = cellAtN s.grid i j := by
    rw [cellAtN_clearCells s.grid (blocksOf s.grid pid) i j hgi hgj, if_neg hnm]
  exact (hclr.symm)

unseal Rat.add Rat.mul Rat.inv in
theorem C10_snapback_safe_witness :
    (handleGlobalMove 0 0 initState).grid = initState.grid ∧
    (handleGlobalEnd
        { handleStart false ((0 : Nat) : ℚ) ((4 : Nat) : ℚ) c8State with
          activePiece :=
            (handleStart false ((0 : Nat) : ℚ) ((4 : Nat) : ℚ) c8State).activePiece.map
              (fun p => { p with posR := (13 : ℚ), posC := (9 : ℚ) }) }).grid =
      c8State.grid ∧
    (handleGlobalEnd
        { handleStart false ((0 : Nat) : ℚ) ((4 : Nat) : ℚ) c8State with
          activePiece :=
            (handleStart false ((0 : Nat) : ℚ) ((4 : Nat) : ℚ) c8State).activePiece.map
              (fun p => { p with posR := (13 : ℚ), posC := (9 : ℚ) }) }).shakePiece =
      true := by
  have h := C10_snapback_safe c8State 0 4 ⟨"#facc15", some "p"⟩ "p" 13 9 rfl rfl
    (by constructor
        · decide
        · decide)
    (by decide) rfl (by decide) (by decide) (by decide)
  exact ⟨h.1 0 0 initState, h.2.1, h.2.2.1⟩

/-! ### Claim C5: mutual exclusion of the active piece -/

unseal Rat.sub Rat.add Rat.mul Rat.inv in
/-- C5 counterexample: lift does NOT refuse to proceed when an ActivePiece
already exists.  In a reachable state (spawn an O, drag it to rows 10-11,
spawn an I, lift the I so it is the active piece), a further pointer-down
on the placed O lifts it as well: the grid, history and active piece all
change, where the claim requires them to be left unchanged. -/
theorem C5_lift_not_refused_with_active_piece :
    c5DragState.activePiece.isSome = true ∧ c5DragState.clearingRows = [] ∧
    (handleStart false 10 4 c5DragState).grid ≠ c5DragState.grid ∧
    (handleStart false 10 4 c5DragState).history ≠ c5DragState.history ∧
    (handleStart false 10 4 c5DragState).activePiece ≠ c5DragState.activePiece := by
  decide

/-- C5 amended (proved): at most one ActivePiece can exist (the state holds a
single optional slot); spawn refuses to proceed whenever an ActivePiece
exists or a clear is in progress (the button dispatch is disabled); lift
refuses while a clear is in progress (and when the game is over), but lift
does not check for an existing ActivePiece — a pointer-down on another
piece's cell during a drag lifts that piece and replaces the active one. -/
theorem C5_spawn_lift_guards (js : List Nat) (newId : String) (s : GameState)
    (b : Bool) (x y : ℚ) :
    (s.activePiece.isSome = true ∨ s.clearingRows ≠ [] →
      spawnButtonPress js newId s = s) ∧
    (s.clearingRows ≠ [] → handleStart b x y s = s) ∧
    (s.gameOver = true → handleStart b x y s = s) := by
  refine ⟨?_, ?_, ?_⟩
  · intro h
    unfold spawnButtonPress
    rw [if_pos h]
  · intro h
    unfold handleStart
    rw [if_pos (Or.inr h)]
  · intro h
    unfold handleStart
    rw [if_pos (Or.inl (by rw [h]))]

theorem C5_spawn_lift_guards_witness :
    spawnButtonPress [] "w" { initState with clearingRows := [3] } =
      { initState with clearingRows := [3] } ∧
    handleStart false 0 0 { initState with clearingRows := [3] } =
      { initState with clearingRows := [3] } := by
  have h := C5_spawn_lift_guards [] "w" { initState with clearingRows := [3] }
    false 0 0
  exact ⟨h.1 (Or.inr (by decide)), h.2.1 (by decide)⟩

/-! ### Claim C6: forced unlock on the next spawn -/

/-- C6 counterexample: when the forced spawn is blocked (`SpawnBlocked`),
the failure path pushes the forced shape key back into the bag
(`src/App.tsx` lines 129-137), so the bag is `["L"]` — not empty —
immediately after that spawn, contradicting the claim's "the bag is reset
so that it is empty immediately after that spawn". -/
theorem C6_bag_not_empty_after_blocked_forced_spawn :
    min (2 + c6Blocked.score / 4) UNLOCK_ORDER.length = c6Blocked.maxUnlocked + 1 ∧
    c6Blocked.clearingRows = [] ∧
    (spawnPiece [] "n" c6Blocked).bag = ["L"] ∧
    ¬ (spawnPiece [] "n" c6Blocked).bag = [] := by
  refine ⟨by decide, by decide, by decide, by decide⟩

/-- C6 amended (proved): whenever `unlockedCount` has increased from `k` to
`k+1` since the last spawn, the very next spawn force-selects the shape at
unlock-order index `k` (0-indexed) regardless of bag contents and resets
the bag before the validity check; if the spawn commits, the bag is empty
immediately after, and if the spawn is blocked, the forced shape id is
pushed back so the bag holds exactly that id. -/
theorem C6_forced_unlock (js : List Nat) (newId : String) (s : GameState) (k : Nat)
    (hcl : s.clearingRows = [])
    (hmax : s.maxUnlocked = k)
    (hinc : min (2 + s.score / 4) UNLOCK_ORDER.length = k + 1) :
    (isValidPosition (SHAPES (UNLOCK_ORDER.getD k "")).1
        ⟨0, ((COLS : Int) -
          ((((SHAPES (UNLOCK_ORDER.getD k "")).1.headD []).length : Nat) : Int)) / 2⟩
        s.grid = true →
      spawnPiece js newId s =
        { s with
          maxUnlocked := k + 1
          bag := []
          history := saveToHistory s.history s.grid
          grid := commitPiece (SHAPES (UNLOCK_ORDER.getD k "")).1
            ⟨0, ((COLS : Int) -
              ((((SHAPES (UNLOCK_ORDER.getD k "")).1.headD []).length : Nat) : Int)) / 2⟩
            (SHAPES (UNLOCK_ORDER.getD k "")).2 newId s.grid
          shakeBoard := false }) ∧
    (isValidPosition (SHAPES (UNLOCK_ORDER.getD k "")).1
        ⟨0, ((COLS : Int) -
          ((((SHAPES (UNLOCK_ORDER.getD k "")).1.headD []).length : Nat) : Int)) / 2⟩
        s.grid = false →
      spawnPiece js newId s =
        { s with
          maxUnlocked := k + 1
          bag := [UNLOCK_ORDER.getD k ""]
          shakeBoard := true }) := by
  have hforced : (s.maxUnlocked < min (2 + s.score / 4) UNLOCK_ORDER.length) := by
    rw [hinc, hmax]
    exact Nat.lt_succ_self k
  constructor
  · intro hval
    simp only [spawnPiece, hcl, hinc, hmax, ne_eq, not_true_eq_false, if_false,
      not_false_eq_true, Nat.add_sub_cancel, if_pos hforced, gt_iff_lt]
    simpa using hval
  · intro hval
    simp only [spawnPiece, hcl, hinc, hmax, ne_eq, not_true_eq_false, if_false,
      not_false_eq_true, Nat.add_sub_cancel, if_pos hforced, gt_iff_lt]
    simpa using hval

theorem C6_forced_unlock_witness :
    spawnPiece [] "n" { initState with score := 4, maxUnlocked := 2 } =
      { initState with
        score := 4
        maxUnlocked := 3
        bag := []
        history := saveToHistory initState.history initState.grid
        grid := commitPiece (SHAPES (UNLOCK_ORDER.getD 2 "")).1
          ⟨0, ((COLS : Int) -
            ((((SHAPES (UNLOCK_ORDER.getD 2 "")).1.headD []).length : Nat) : Int)) / 2⟩
          (SHAPES (UNLOCK_ORDER.getD 2 "")).2 "n" initState.grid
        shakeBoard := false } := by
  exact (C6_forced_unlock [] "n" { initState with score := 4, maxUnlocked := 2 } 2
    rfl rfl (by decide)).1 (by decide)

/-! ### Claim C7: bag refill fairness -/

theorem dropLast_append_getLastD (l : List String) (h : l ≠ []) :
    l.dropLast ++ [l.getLastD ""] = l := by
  rw [List.getLastD_eq_getLast?, List.getLast?_eq_getLast l h, Option.getD_some]
  exact List.dropLast_append_getLast h

theorem getLastD_not_mem_dropLast (l : List String) (hnd : l.Nodup) (h : l ≠ []) :
    l.getLastD "" ∉ l.dropLast := by
  have e := dropLast_append_getLastD l h
  rw [← e] at hnd
  have hcons : (l.getLastD "" :: l.dropLast).Nodup :=
    ((List.perm_append_singleton _ _).nodup_iff).mp hnd
  exact (List.nodup_cons.mp hcons).1

/-- C7 counterexample: the sliding-window reading fails.  With
`unlockedCount` constant at 2 (score stays 0, undo restores the grid but
not the bag) the three spawns draw I, O, O: spawns 2 and 3 — two
consecutive draws, a window of `k = 2` — both commit the O shape (O's color
`"#facc15"` at the spawn cell), so not every 2 consecutive draws contain
each of the 2 unlocked shape ids `["O", "I"]` exactly once.  Windows that
straddle two bag cycles can repeat a shape. -/
theorem C7_sliding_window_repeats :
    c7Spawn1.maxUnlocked = 2 ∧ c7Spawn2.maxUnlocked = 2 ∧ c7Spawn3.maxUnlocked = 2 ∧
    c7Spawn1.score = 0 ∧ c7Spawn2.score = 0 ∧ c7Spawn3.score = 0 ∧
    UNLOCK_ORDER.take 2 = ["O", "I"] ∧
    cellAtN c7Spawn1.grid 0 4 = some ⟨"#22d3ee", some "a"⟩ ∧
    cellAtN c7Spawn2.grid 0 4 = some ⟨"#facc15", some "b"⟩ ∧
    cellAtN c7Spawn3.grid 0 4 = some ⟨"#facc15", some "c"⟩ := by
  decide

/-- C7 amended (proved): at a non-forced spawn with an empty bag, the bag is
refilled with a permutation of the `k` currently unlocked shape ids (each
appearing exactly once — the refill is duplicate-free) and the last entry
is popped; the popped id together with the remaining bag is exactly the
refill, so within each aligned bag cycle every unlocked id is drawn exactly
once (windows straddling two cycles may repeat); on a blocked spawn the
drawn id is pushed back, restoring the full cycle; and the bag never holds
more than one instance of any shape id. -/
theorem C7_bag_cycle (js : List Nat) (newId : String) (s : GameState) (k : Nat)
    (hcl : s.clearingRows = []) (hbag : s.bag = [])
    (hk : min (2 + s.score / 4) UNLOCK_ORDER.length = k)
    (hnf : k ≤ s.maxUnlocked) :
    (shuffleArray js (UNLOCK_ORDER.take k)).Perm (UNLOCK_ORDER.take k) ∧
    (shuffleArray js (UNLOCK_ORDER.take k)).Nodup ∧
    (shuffleArray js (UNLOCK_ORDER.take k)).dropLast ++
        [(shuffleArray js (UNLOCK_ORDER.take k)).getLastD ""] =
      shuffleArray js (UNLOCK_ORDER.take k) ∧
    (isValidPosition (SHAPES ((shuffleArray js (UNLOCK_ORDER.take k)).getLastD "")).1
        ⟨0, ((COLS : Int) -
          ((((SHAPES ((shuffleArray js (UNLOCK_ORDER.take k)).getLastD "")).1.headD
            []).length : Nat) : Int)) / 2⟩ s.grid = true →
      (spawnPiece js newId s).bag = (shuffleArray js (UNLOCK_ORDER.take k)).dropLast) ∧
    (isValidPosition (SHAPES ((shuffleArray js (UNLOCK_ORDER.take k)).getLastD "")).1
        ⟨0, ((COLS : Int) -
          ((((SHAPES ((shuffleArray js (UNLOCK_ORDER.take k)).getLastD "")).1.headD
            []).length : Nat) : Int)) / 2⟩ s.grid = false →
      (spawnPiece js newId s).bag = shuffleArray js (UNLOCK_ORDER.take k)) ∧
    (spawnPiece js newId s).bag.Nodup := by
  have hperm := shuffleArray_perm js (UNLOCK_ORDER.take k)
  have htake : (UNLOCK_ORDER.take k).Nodup :=
    (List.take_sublist k UNLOCK_ORDER).nodup (by decide)
  have hnodup : (shuffleArray js (UNLOCK_ORDER.take k)).Nodup :=
    (hperm.nodup_iff).mpr htake
  have hk2 : 2 ≤ k := by
    have h7 : UNLOCK_ORDER.length = 7 := by decide
    omega
  have hlen : (shuffleArray js (UNLOCK_ORDER.take k)).length = min k 7 := by
    rw [hperm.length_eq, List.length_take]
    rfl
  have hne : shuffleArray js (UNLOCK_ORDER.take k) ≠ [] := by
    intro hnil
    rw [hnil] at hlen
    simp at hlen
    omega
  have hcycle := dropLast_append_getLastD _ hne
  have hnotmem := getLastD_not_mem_dropLast _ hnodup hne
  have hforced_neg : ¬ (s.maxUnlocked < k) := by
    omega
  have hval_eq : ∀ hval : Bool, isValidPosition
      (SHAPES ((shuffleArray js (UNLOCK_ORDER.take k)).getLastD "")).1
      ⟨0, ((COLS : Int) -
        ((((SHAPES ((shuffleArray js (UNLOCK_ORDER.take k)).getLastD "")).1.headD
          []).length : Nat) : Int)) / 2⟩ s.grid = hval →
      (spawnPiece js newId s).bag =
        (if hval then (shuffleArray js (UNLOCK_ORDER.take k)).dropLast
         else shuffleArray js (UNLOCK_ORDER.take k)) := by
    intro hval hv
    cases hval with
    | true =>
      simp only [spawnPiece, hcl, hbag, hk, ne_eq, not_true_eq_false, if_false,
        not_false_eq_true, if_neg hforced_neg, gt_iff_lt, if_true, ite_true]
      rw [if_neg (by simpa using hv)]
    | false =>
      simp only [spawnPiece, hcl, hbag, hk, ne_eq, not_true_eq_false, if_false,
        not_false_eq_true, if_neg hforced_neg, gt_iff_lt, if_true, ite_true]
      rw [if_pos (by simpa using hv)]
      rw [if_neg (show ¬ ((shuffleArray js (UNLOCK_ORDER.take k)).getLastD "" ∈
        (shuffleArray js (UNLOCK_ORDER.take k)).dropLast) from hnotmem)]
      simpa using hcycle
  refine ⟨hperm, hnodup, hcycle, ?_, ?_, ?_⟩
  · intro hv
    rw [hval_eq true hv]
    rfl
  · intro hv
    rw [hval_eq false hv]
    rfl
  · by_cases hv : isValidPosition
        (SHAPES ((shuffleArray js (UNLOCK_ORDER.take k)).getLastD "")).1
        ⟨0, ((COLS : Int) -
          ((((SHAPES ((shuffleArray js (UNLOCK_ORDER.take k)).getLastD "")).1.headD
            []).length : Nat) : Int)) / 2⟩ s.grid = true
    · rw [hval_eq true hv]
      exact hnodup.sublist (List.dropLast_sublist _)
    · rw [hval_eq false (by simpa using hv)]
      exact hnodup

theorem C7_bag_cycle_witness :
    (shuffleArray [0] (UNLOCK_ORDER.take 2)).Perm (UNLOCK_ORDER.take 2) ∧
    (shuffleArray [0] (UNLOCK_ORDER.take 2)).Nodup ∧
    (spawnPiece [0] "w" initState).bag =
      (shuffleArray [0] (UNLOCK_ORDER.take 2)).dropLast ∧
    (spawnPiece [0] "w" initState).bag.Nodup := by
  have h := C7_bag_cycle [0] "w" initState 2 rfl rfl (by decide) (by decide)
  exact ⟨h.1, h.2.1, h.2.2.2.1 (by decide), h.2.2.2.2.2⟩

end Tetris
